import Mathlib

/-!
Verification of the facerecog recognition-and-attendance pipeline.

This file gives a shallow embedding, in Lean 4, of the core functions of
`backend/recognizer_arcface.py`, `backend/local_database.py` and
`backend/sync_local_logs.py`, and proves (or refutes) the behavioural
claims of the specification against them.

Modelling conventions used throughout:
* Python strings are Lean `String`s; all character-level operations
  (lower-casing, strip, substring tests, splitting) are carried out on
  `String.data : List Char` with executable list functions, so that
  concrete counterexamples evaluate by `decide`.
* `datetime.time` values are modelled as minutes since midnight.  The
  source compares `time` objects (hour, minute) lexicographically, which
  coincides with comparison of total minutes; ISO date strings are
  compared as raw strings in the source (both in Python and in SQLite),
  modelled by lexicographic comparison of their character lists.
* Wall-clock timestamps are seconds as `Nat`; traces only ever advance
  time, matching the monotone `datetime.now()` of the source.
* Network calls are modelled by explicit outcome parameters
  (`NetOutcome`): the remote store is an external collaborator, so its
  responses are inputs of the model.
-/

namespace FaceRecog

/-! ## Character-list string primitives (Python `str` operations) -/

/-- Python `str.replace('_', ' ')`, one character at a time. -/
def underscoreToSpace (c : Char) : Char := if c = '_' then ' ' else c

/-- Python `str.split()` with no argument: split on runs of whitespace,
discarding empty pieces. -/
def splitWhitespace (l : List Char) : List (List Char) :=
  (l.foldr
    (fun c acc =>
      if c.isWhitespace then [] :: acc
      else
        match acc with
        | [] => [[c]]
        | w :: ws => (c :: w) :: ws)
    [[]]).filter (fun w => w ≠ [])

/-- Python `str.strip()`: drop leading and trailing whitespace. -/
def stripL (l : List Char) : List Char :=
  ((l.dropWhile Char.isWhitespace).reverse.dropWhile Char.isWhitespace).reverse

/-- Python `str.lower()` (ASCII, as used for room names). -/
def lowerL (l : List Char) : List Char := l.map Char.toLower

/-- Decidable list-prefix test (`Bool`-valued). -/
def lpfx : List Char → List Char → Bool
  | [], _ => true
  | _ :: _, [] => false
  | a :: as, b :: bs => a = b && lpfx as bs

/-- Python `needle in hay` on strings: contiguous-substring test. -/
def lsub (needle : List Char) : List Char → Bool
  | [] => lpfx needle []
  | c :: t => lpfx needle (c :: t) || lsub needle t

/-- Lexicographic `≤` on character lists: the comparison Python and
SQLite perform on ISO date strings (for valid ISO dates it coincides
with chronological order). -/
def lexLe : List Char → List Char → Bool
  | [], _ => true
  | _ :: _, [] => false
  | a :: as, b :: bs =>
    if a = b then lexLe as bs else decide (a < b)

/-! ## `recognizer_arcface.format_instructor_name` -/

/-- The whitespace split of a folder name after replacing underscores,
i.e. Python `folder_name.replace('_', ' ').split()`. -/
def nameParts (folder_name : String) : List (List Char) :=
  splitWhitespace (folder_name.data.map underscoreToSpace)

/-- `recognizer_arcface.format_instructor_name`: convert a face-folder
name to `"LastName, FirstName"`, keeping only the first and last
whitespace-separated parts; names with fewer than two parts are
returned unchanged. -/
def format_instructor_name (folder_name : String) : String :=
  let parts := nameParts folder_name
  if 2 ≤ parts.length then
    ⟨parts.getLastD [] ++ ", ".data ++ parts.headD []⟩
  else
    folder_name

/-! ## Time parsing (`recognizer_arcface.parse_time_string`) -/

/-- Parse a decimal digit list to a number, `none` if empty or non-digit
(Python `int(...)` raising `ValueError`; negative values are rejected
later by the `datetime.time` constructor, folded in here). -/
def digitsToNat : List Char → Option Nat
  | [] => none
  | l =>
    if l.all (fun c => c.isDigit) then
      some (l.foldl (fun n c => n * 10 + (c.toNat - 48)) 0)
    else
      none

/-- `recognizer_arcface.parse_time_string`: parse `"HH:MM"` to minutes
since midnight; any malformed input (wrong shape, non-numeric, hour or
minute out of range for `datetime.time`) yields `none`. -/
def parse_time_string (s : String) : Option Nat :=
  match s.data.splitOn ':' with
  | [h, m] =>
    match digitsToNat h, digitsToNat m with
    | some hh, some mm =>
      if hh < 24 ∧ mm < 60 then some (hh * 60 + mm) else none
    | _, _ => none
  | _ => none

/-! ## Schedule data model -/

/-- Minutes in a day. -/
def MINUTES_PER_DAY : Nat := 1440

/-- `recognizer_arcface.LATE_THRESHOLD_MINUTES`. -/
def LATE_THRESHOLD_MINUTES : Nat := 15

/-- A schedule row as stored in the local SQLite `schedules` table
(`local_database.py`).  `days` is the parsed JSON day map. -/
structure DbSchedule where
  id : String
  instructor_name : String
  course_code : String
  course_title : String
  room : String
  start_time : String
  end_time : String
  semester_start_date : String
  semester_end_date : String
  days : List (String × Bool)
  deriving DecidableEq, Repr

/-- A schedule dict held in the recognizer's in-memory
`schedule_cache` (fields used by `get_current_schedule_from_cache`).
`id` is `none` when the `_id`/`id` keys are missing or falsy. -/
structure CSchedule where
  id : Option String
  courseCode : Option String
  room : String
  startTime : String
  endTime : String
  semesterStartDate : String
  semesterEndDate : String
  days : List (String × Bool)
  deriving DecidableEq, Repr

/-- Day-map lookup: Python `days.get(current_day, False)`. -/
def daysGet (days : List (String × Bool)) (day : String) : Bool :=
  match days.find? (fun p => p.1 = day) with
  | some p => p.2
  | none => false

/-- The room-match test of `local_database.get_current_schedule`:
after `strip().lower()` on both sides, exact equality or substring
containment in either direction. -/
def roomMatchB (provided_room sched_room : String) : Bool :=
  let pr := lowerL (stripL provided_room.data)
  let sr := lowerL (stripL sched_room.data)
  sr = pr || lsub sr pr || lsub pr sr

/-- The `_id` validation the recognizer performs before using a
schedule for logging: the id must be present and, after `strip()`,
non-empty and distinct from `"None"` and `"N/A"`. -/
def validSchedId : Option String → Option String
  | none => none
  | some s =>
    let t := stripL s.data
    if t = [] ∨ t = "None".data ∨ t = "N/A".data then none else some ⟨t⟩

/-! ## `local_database.get_current_schedule` -/

/-- The result dict built by `local_database.get_current_schedule`. -/
structure DbScheduleResult where
  id : String
  courseCode : String
  courseTitle : String
  room : String
  startTime : String
  endTime : String
  days : List (String × Bool)
  instructor_name : String
  isValidSchedule : Bool
  timeMatch : Bool
  roomMatch : Option Bool
  deriving DecidableEq, Repr

/-- One candidate row of the `local_database.get_current_schedule` scan:
`none` means the Python loop `continue`s past the row. -/
def dbScheduleRowMatch (room_name : Option String) (current_day : String)
    (current_minutes : Int) (s : DbSchedule) : Option DbScheduleResult :=
  if daysGet s.days current_day then
    match parse_time_string s.start_time, parse_time_string s.end_time with
    | some start_minutes, some end_minutes =>
      -- `time_before_class = start_minutes - 30` on Python ints (may be negative)
      let time_before_class : Int := (start_minutes : Int) - 30
      if time_before_class ≤ current_minutes ∧ current_minutes ≤ (end_minutes : Int) then
        let room_match :=
          match room_name with
          | none => true
          | some rn => roomMatchB rn s.room
        some
          { id := s.id
            courseCode := s.course_code
            courseTitle := s.course_title
            room := s.room
            startTime := s.start_time
            endTime := s.end_time
            days := s.days
            instructor_name := s.instructor_name
            isValidSchedule := room_match
            timeMatch := true
            roomMatch := if room_name.isSome then some room_match else none }
      else none
    | _, _ => none
  else none

/-- `local_database.get_current_schedule`: filter rows by
`instructor_name LIKE %name%` and semester date range (raw string
comparison, as SQLite performs on TEXT), then return the first row
scheduled today whose time window (including the 30-minute pre-class
buffer) contains the current time; `isValidSchedule` is the room-match
flag.  The Python function catches every exception and returns `None`;
the model is total and returns an `Option`. -/
def localdb_get_current_schedule (rows : List DbSchedule) (instructor_name : String)
    (room_name : Option String) (today : String) (current_day : String)
    (current_minutes : Int) : Option DbScheduleResult :=
  let selected := rows.filter (fun s =>
    lsub instructor_name.data s.instructor_name.data
      && lexLe s.semester_start_date.data today.data
      && lexLe today.data s.semester_end_date.data)
  selected.findSome? (dbScheduleRowMatch room_name current_day current_minutes)

/-! ## `recognizer_arcface.get_current_schedule_from_cache` -/

/-- The schedule copy returned by `get_current_schedule_from_cache`
(fields the pipeline consumes downstream). -/
structure CacheScheduleResult where
  id : String
  courseCode : String
  room : String
  isValidSchedule : Bool
  is_late : Bool
  deriving DecidableEq, Repr

/-- One candidate schedule of the `get_current_schedule_from_cache`
scan.  On a time match the function sets `isValidSchedule := true`
unconditionally (the source comment reads "room check removed"); a
missing or invalid `_id` aborts the whole lookup (`return None` in the
source, not `continue`). -/
def cacheScheduleMatch (current_day : String) (current_date : String)
    (current_time : Nat) (s : CSchedule) : Option (Option CacheScheduleResult) :=
  if ¬ (lexLe s.semesterStartDate.data current_date.data
        && lexLe current_date.data s.semesterEndDate.data) then
    none
  else if s.days ≠ [] ∧ daysGet s.days current_day = false then
    none
  else
    match parse_time_string s.startTime, parse_time_string s.endTime with
    | some start_time, some end_time =>
      -- 30-minute pre-class buffer, wrapping around midnight as a time-of-day
      let time_before_class := (start_time + MINUTES_PER_DAY - 30) % MINUTES_PER_DAY
      let time_matches :=
        if start_time < time_before_class then
          current_time ≥ time_before_class ∨ current_time ≤ end_time
        else
          time_before_class ≤ current_time ∧ current_time ≤ end_time
      if time_matches then
        let late_threshold := (start_time + LATE_THRESHOLD_MINUTES) % MINUTES_PER_DAY
        let is_late := late_threshold < current_time
        match validSchedId s.id with
        | none => some none      -- schedule without usable `_id`: whole lookup returns None
        | some sid =>
          some (some
            { id := sid
              courseCode := s.courseCode.getD "N/A"
              room := s.room
              isValidSchedule := true
              is_late := is_late })
      else none
    | _, _ => none

/-- `recognizer_arcface.get_current_schedule_from_cache`: look up the
formatted instructor name in the schedule cache and return the first
schedule active today whose time window (with the 30-minute pre-class
buffer, handling midnight crossover) contains the current time.  The
camera's room plays no part: `isValidSchedule` is `true` for every
time-matching schedule. -/
def get_current_schedule_from_cache
    (schedule_cache : List (String × List CSchedule)) (instructor_name : String)
    (current_day : String) (current_date : String) (current_time : Nat) :
    Option CacheScheduleResult :=
  let formatted_name := format_instructor_name instructor_name
  let instructor_schedules :=
    match schedule_cache.find? (fun p => p.1 = formatted_name) with
    | some p => p.2
    | none => []
  match instructor_schedules.findSome?
      (cacheScheduleMatch current_day current_date current_time) with
  | some r => r
  | none => none

/-! ## Embedding store (`recognizer_arcface.load_embeddings`) -/

/-- Outcome of handling one dataset image: unreadable files are dropped
when collecting `all_images`; readable images either contain no
detectable face or yield a raw embedding vector. -/
inductive ImageOutcome
  | unreadable
  | noFace
  | face (raw : List Int)
  deriving DecidableEq, Repr

/-- The globals `known_embeddings` / `known_names`, always read and
written together under `embeddings_lock`. -/
structure EmbStore where
  known_embeddings : List (List Int)
  known_names : List String
  deriving DecidableEq, Repr

/-- The per-image processing loop of `load_embeddings`: skip images with
no detected face, skip embeddings whose dimension differs from the
first collected one, normalize (the numeric `emb / norm(emb)` is the
parameter `normF`, which preserves vector length) and append to the
temporary buffers, names in lockstep with embeddings. -/
def loadStep (normF : List Int → List Int)
    (acc : List (List Int) × List String) (item : String × ImageOutcome) :
    List (List Int) × List String :=
  match item.2 with
  | .unreadable => acc
  | .noFace => acc
  | .face raw =>
    match acc.1.head? with
    | some e0 =>
      if raw.length ≠ e0.length then acc
      else (acc.1 ++ [normF raw], acc.2 ++ [item.1])
    | none => (acc.1 ++ [normF raw], acc.2 ++ [item.1])

/-- The whole image-processing loop: a left fold of `loadStep` starting
from empty temporary buffers. -/
def loadLoop (normF : List Int → List Int)
    (items : List (String × ImageOutcome)) : List (List Int) × List String :=
  items.foldl (loadStep normF) ([], [])

/-- `recognizer_arcface.load_embeddings`: collect all readable images,
process them through the loop, and only if the whole walk produced at
least one embedding swap the `(matrix, names)` pair into the store in a
single step (the source performs both assignments under
`embeddings_lock`).  Every failure path (`dataset dir missing`, no
readable images, no usable faces) returns before the swap, leaving the
store untouched. -/
def load_embeddings (normF : List Int → List Int) (datasetExists : Bool)
    (people : List (String × List ImageOutcome)) (st : EmbStore) : EmbStore × Bool :=
  if ¬ datasetExists then (st, false)
  else
    let all_images := (people.map (fun p =>
      (p.2.filter (fun o => o ≠ ImageOutcome.unreadable)).map (fun o => (p.1, o)))).flatten
    if all_images = [] then (st, false)
    else
      let temps := loadLoop normF all_images
      if temps.1 = [] then (st, false)
      else ({ known_embeddings := temps.1, known_names := temps.2 }, true)

/-! ## Identity matcher (`face_detection_thread`, batch matching) -/

/-- `recognizer_arcface.CONF_THRESHOLD`. -/
def CONF_THRESHOLD : ℚ := 45 / 100

/-- The `1e-10` floor `np.maximum(face_norms, 1e-10)` applies to query
norms before division. -/
def NORM_FLOOR : ℚ := 1 / 10 ^ 10

/-- Dot product of two embedding vectors (rows of the similarity
matrix product `known_matrix · queriesᵀ`). -/
def dotQ (a b : List ℚ) : ℚ := ((a.zip b).map (fun p => p.1 * p.2)).sum

/-- Sum of squares (the squared Euclidean norm). -/
def sumSq (a : List ℚ) : ℚ := (a.map (fun x => x * x)).sum

/-- Query normalization: divide every component by
`max norm NORM_FLOOR`, where `norm` is the query's Euclidean norm
(supplied as a value, since square roots leave ℚ). -/
def normalizeQ (q : List ℚ) (nrm : ℚ) : List ℚ :=
  q.map (fun x => x / max nrm NORM_FLOOR)

/-- `np.argmax` over one column of the similarity matrix together with
the attained value: first index of the maximum (ties keep the earliest
row, as `np.argmax` does). -/
def argmaxAux : List ℚ → Nat → Nat × ℚ → Nat × ℚ
  | [], _, best => best
  | x :: t, i, best =>
    argmaxAux t (i + 1) (if best.2 < x then (i, x) else best)

/-- Best row index and similarity score for one query column
(`best_indices[j]`, `best_scores[j]`).  The detection loop only runs
with a nonempty known matrix (`len(known_embeddings) > 0`); on an empty
column this returns the `np` convention-free default `(0, 0)`. -/
def argmaxL : List ℚ → Nat × ℚ
  | [] => (0, 0)
  | x :: t => argmaxAux t 1 (0, x)

/-- The similarity column for one query: dot products against every
known embedding (one column of the single matrix multiply
`np.dot(known_embeddings, normalized_embeddings.T)`). -/
def simColumn (known : List (List ℚ)) (q : List ℚ) : List ℚ :=
  known.map (fun k => dotQ k q)

/-- Best match for one query: argmax row of its similarity column. -/
def matchFace (known : List (List ℚ)) (q : List ℚ) : Nat × ℚ :=
  argmaxL (simColumn known q)

/-- The per-face acceptance loop: a face enters downstream processing
(detected-names set, session handling, detection entry) exactly when
its best score strictly exceeds `CONF_THRESHOLD`
(`high_confidence_mask`); everything below the threshold is skipped by
`continue` — no entry of any kind, in particular no "unknown" identity.
Output: `(query index, matched name, score)` per accepted face. -/
def processFaces (known : List (List ℚ)) (names : List String)
    (queries : List (List ℚ)) : List (Nat × String × ℚ) :=
  (List.range queries.length).filterMap (fun j =>
    let best := matchFace known (queries.getD j [])
    if CONF_THRESHOLD < best.2 then some (j, names.getD best.1 "", best.2)
    else none)

/-! ## Frame transport protocol (`read_single_frame`, frame draining) -/

/-- The 10 MiB hard cap on a frame's declared length. -/
def FRAME_CAP : Nat := 10 * 1024 * 1024

/-- `max_skip`: the drain loops read at most this many frames per pass. -/
def MAX_SKIP : Nat := 100

/-- `frame_queue = Queue(maxsize=5)`: capacity of the hand-off queue
between the video-sender (producer) and detection (consumer) threads. -/
def FRAME_QUEUE_MAXSIZE : Nat := 5

/-- `recognizer_arcface.read_single_frame` over a byte stream: read a
4-byte big-endian length prefix, then that many payload bytes.  Returns
the payload (or `none`) together with the not-yet-consumed remainder of
the stream.  Mirrors the source exactly: an oversized or zero length
returns `None` after consuming only the 4 header bytes (the payload
bytes stay in the stream); a truncated header or truncated payload
consumes the rest of the stream and returns `None`. -/
def read_single_frame : List Nat → Option (List Nat) × List Nat
  | b0 :: b1 :: b2 :: b3 :: rest =>
    let frame_len := ((b0 * 256 + b1) * 256 + b2) * 256 + b3
    if FRAME_CAP < frame_len then (none, rest)
    else if frame_len = 0 then (none, rest)
    else if rest.length < frame_len then (none, [])
    else (some (rest.take frame_len), rest.drop frame_len)
  | _ => (none, [])

/-- The frame-skipping drain loop shared by `video_sender_thread` and
`read_frame_from_stdin`: up to `fuel` (= `max_skip`) reads; stop when a
read fails, when no more bytes are immediately available
(`select` with zero timeout), or when the iteration budget runs out;
keep only the newest successfully read frame. -/
def drainLatest : Nat → Option (List Nat) → List Nat → Option (List Nat) × List Nat
  | 0, latest, s => (latest, s)
  | Nat.succ fuel, latest, s =>
    match read_single_frame s with
    | (none, s') => (latest, s')
    | (some f, s') =>
      if s'.isEmpty then (some f, s')
      else drainLatest fuel (some f) s'

/-- `frame_queue.put_nowait` with the drop-oldest-on-full recovery of
`video_sender_thread`: if the queue is full, discard the oldest entry
and append the new frame. -/
def queueSubmit (q : List (List Nat)) (f : List Nat) : List (List Nat) :=
  if q.length < FRAME_QUEUE_MAXSIZE then q ++ [f]
  else q.drop 1 ++ [f]

/-- Big-endian 4-byte encoding of a length (the framing the transport
layer applies before the stream reaches `read_single_frame`). -/
def be4 (n : Nat) : List Nat :=
  [n / 16777216 % 256, n / 65536 % 256, n / 256 % 256, n % 256]

/-- A frame on the wire: length prefix followed by payload. -/
def encodeFrame (p : List Nat) : List Nat := be4 p.length ++ p

/-- A whole stream of frames. -/
def encodeAll (fs : List (List Nat)) : List Nat := (fs.map encodeFrame).flatten

/-- A well-formed frame: nonempty payload within the hard cap. -/
def wfFrame (p : List Nat) : Prop := 0 < p.length ∧ p.length ≤ FRAME_CAP

/-! ## Session tracker (`PersonSession` and the detection loop) -/

/-- `recognizer_arcface.ABSENCE_TIMEOUT_SECONDS`. -/
def ABSENCE_TIMEOUT_SECONDS : Nat := 300

/-- `SESSION_CLEANUP_TIMEOUT` in `check_absent_people`. -/
def SESSION_CLEANUP_TIMEOUT : Nat := 3600

/-- `recognizer_arcface.SCHEDULE_RECHECK_INTERVAL_SECONDS`. -/
def SCHEDULE_RECHECK_INTERVAL_SECONDS : Nat := 5

/-- Outcome of one network round trip to the backend, an input of the
model: no internet detected by the pre-check, a raised connection
error, or an HTTP response with a status code. -/
inductive NetOutcome
  | noConnectivity
  | netError
  | status (code : Nat)
  deriving DecidableEq, Repr

/-- The slice of a resolved schedule dict a `PersonSession` keeps:
its `_id` (possibly missing) and the computed late flag. -/
structure SessSched where
  id : Option String
  is_late : Bool
  deriving DecidableEq, Repr

/-- `recognizer_arcface.PersonSession` (the fields the state machine
reads and writes). -/
structure PersonSession where
  name : String
  first_seen : Nat
  last_seen : Nat
  total_time_seconds : Nat
  is_present : Bool
  left_at : Option Nat
  schedule : Option SessSched
  time_in_logged : Bool
  time_out_logged : Bool
  is_late : Bool
  log_type : Option String
  last_schedule_check : Nat
  deriving DecidableEq, Repr

/-- `PersonSession.__init__`. -/
def PersonSession.init (name : String) (now : Nat) : PersonSession :=
  { name := name
    first_seen := now
    last_seen := now
    total_time_seconds := 0
    is_present := true
    left_at := none
    schedule := none
    time_in_logged := false
    time_out_logged := false
    is_late := false
    log_type := none
    last_schedule_check := now }

/-- `PersonSession.update_presence`: while present, accrue the elapsed
wall-clock delta into `total_time_seconds`, then refresh `last_seen`. -/
def PersonSession.update_presence (s : PersonSession) (now : Nat) : PersonSession :=
  if s.is_present then
    { s with total_time_seconds := s.total_time_seconds + (now - s.last_seen),
             last_seen := now }
  else
    { s with last_seen := now }

/-- `PersonSession.mark_left`: present → absent, recording `left_at`;
returns whether a transition happened. -/
def PersonSession.mark_left (s : PersonSession) (now : Nat) : PersonSession × Bool :=
  if s.is_present then
    ({ s.update_presence now with is_present := false, left_at := some now }, true)
  else
    (s, false)

/-- `PersonSession.mark_returned`: absent → present, computing the
absence duration `returned_at - left_at`.  The Python subtraction
dereferences `left_at`; the model returns `none` exactly where the
source would raise a `TypeError` on a `None` `left_at`. -/
def PersonSession.mark_returned (s : PersonSession) (now : Nat) :
    Option (PersonSession × Bool × Nat) :=
  if s.is_present then some (s, false, 0)
  else
    match s.left_at with
    | none => none
    | some t =>
      some ({ s with is_present := true, last_seen := now }, true, now - t)

/-- The session operations reachable from the tracker: creation is
`PersonSession.init`; afterwards the detection loop and absence monitor
only ever call `update_presence`, `mark_left` and `mark_returned`. -/
inductive ReachableSession : PersonSession → Prop
  | init (name : String) (now : Nat) : ReachableSession (PersonSession.init name now)
  | update (s : PersonSession) (now : Nat) :
      ReachableSession s → ReachableSession (s.update_presence now)
  | leave (s : PersonSession) (now : Nat) :
      ReachableSession s → ReachableSession (s.mark_left now).1
  | ret (s : PersonSession) (now : Nat) (r : PersonSession × Bool × Nat) :
      ReachableSession s → s.mark_returned now = some r → ReachableSession r.1
  | setSchedule (s : PersonSession) (sch : Option SessSched) (late : Bool)
      (flag : Bool) (lt : Option String) (chk : Nat) :
      ReachableSession s →
      ReachableSession { s with schedule := sch, is_late := late,
                                time_in_logged := s.time_in_logged || flag,
                                log_type := lt, last_schedule_check := chk }

/-- Discrete events the pipeline emits (the `events` list of the
output protocol); payloads are dropped, the kind is what the claims
count. -/
inductive Ev
  | time_in (late : Bool)       -- a "time in" or "late" log entry
  | first_detected
  | detected_no_schedule
  | returned
  | left
  | time_out
  deriving DecidableEq, Repr

/-- Is an event a time-in (or late) log entry? -/
def isTimeInEv : Ev → Bool
  | .time_in _ => true
  | _ => false

/-- Is an event a `first_detected` event? -/
def isFirstDetectedEv : Ev → Bool
  | .first_detected => true
  | _ => false

/-- `recognizer_arcface.log_time_in`'s return flag as a function of its
inputs: it returns `False` only when the schedule id fails validation;
every other path — offline mode, no connectivity, successful POST,
non-200 response, raised exception — returns `True` because the entry
was already queued locally. -/
def log_time_in_ok (schedId : Option String) : Bool :=
  (validSchedId schedId).isSome

/-- `recognizer_arcface.log_time_out`'s return flag: `False` when the
schedule id fails validation, and also when the backend answers with a
non-200 status; offline mode, missing connectivity and raised
exceptions all return `True` (entry queued locally). -/
def log_time_out_ok (schedId : Option String) (offline : Bool)
    (net : NetOutcome) : Bool :=
  match validSchedId schedId with
  | none => false
  | some _ =>
    if offline then true
    else
      match net with
      | .noConnectivity => true
      | .netError => true
      | .status code => code = 200

/-- One session's slice of `check_absent_people`: the cleanup test
(evict sessions that left over an hour ago) and, for a present session
with a resolved schedule that was not in the current detection batch,
the absence-timeout transition with its `time_out`/`left` events.
Returns the updated session, the emitted events, and whether the
session is evicted from `person_sessions`. -/
def checkAbsentSession (s : PersonSession) (detected : Bool) (now : Nat)
    (offline : Bool) (net : NetOutcome) : PersonSession × List Ev × Bool :=
  let evict : Bool :=
    !s.is_present &&
      match s.left_at with
      | some t => decide (SESSION_CLEANUP_TIMEOUT ≤ now - t)
      | none => false
  if s.is_present ∧ ¬ detected ∧ s.schedule.isSome then
    if ABSENCE_TIMEOUT_SECONDS ≤ now - s.last_seen then
      let s₁ := (s.mark_left now).1
      let (s₂, evs) :=
        if s₁.schedule.isSome ∧ s₁.time_in_logged ∧ ¬ s₁.time_out_logged then
          match validSchedId (s₁.schedule.map SessSched.id).join with
          | some sid =>
            if log_time_out_ok (some sid) offline net then
              ({ s₁ with time_out_logged := true }, [Ev.time_out])
            else (s₁, [])
          | none => (s₁, [])
        else (s₁, [])
      (s₂, evs ++ [Ev.left], evict)
    else (s, [], evict)
  else (s, [], evict)

/-- Creation of a session for a brand-new face in
`face_detection_thread`: every detected identity gets a session; with a
resolved schedule whose id validates, a time-in is logged (the log call
succeeds whenever the id is valid), the `time_in_logged` flag is set in
the same step and a time-in (or late) event plus `first_detected` are
emitted; without a schedule only `detected_no_schedule` is emitted. -/
def detectNew (name : String) (now : Nat) (lookup : Option SessSched) :
    Option PersonSession × List Ev :=
  let s := { PersonSession.init name now with schedule := lookup }
  match lookup with
  | some sch =>
    let s := { s with is_late := sch.is_late }
    if log_time_in_ok sch.id then
      (some { s with time_in_logged := true,
                     log_type := some (if sch.is_late then "late" else "time in") },
       [Ev.time_in sch.is_late, Ev.first_detected])
    else
      (some s, [Ev.first_detected])
  | none => (some s, [Ev.detected_no_schedule])

/-- The presence-refresh half of the existing-session branch: an absent
session is marked returned (emitting `returned` and forcing a schedule
re-check); a present one accrues time, and a re-check is due when the
re-check interval elapsed since `last_schedule_check`. -/
def presencePhase (s : PersonSession) (now : Nat) : PersonSession × List Ev × Bool :=
  if ¬ s.is_present then
    match s.mark_returned now with
    | some (s', true, _) => (s', [Ev.returned], true)
    | _ => (s, [], false)
  else
    (s.update_presence now, [],
     decide (SCHEDULE_RECHECK_INTERVAL_SECONDS ≤ now - s.last_schedule_check))

/-- The schedule re-check half of the existing-session branch: when a
schedule appears on a session that had none, adopt it and log a time-in
only if `time_in_logged` is still unset; otherwise adopt/clear the
fresh schedule without logging. -/
def recheckPhase (s₂ : PersonSession) (new_schedule : Option SessSched) :
    PersonSession × List Ev :=
  match new_schedule, s₂.schedule with
  | some ns, none =>
    let s₃ := { s₂ with schedule := some ns, is_late := ns.is_late }
    if ¬ s₃.time_in_logged then
      if log_time_in_ok ns.id then
        ({ s₃ with time_in_logged := true,
                   log_type := some (if ns.is_late then "late" else "time in") },
         [Ev.time_in ns.is_late])
      else (s₃, [])
    else (s₃, [])
  | some ns, some _ => ({ s₂ with schedule := some ns, is_late := ns.is_late }, [])
  | none, some _ => ({ s₂ with schedule := none }, [])
  | none, none => (s₂, [])

/-- One detection of a known name in `face_detection_thread` (the
session-handling block), for a single identity.  `lookup` is the
outcome of the schedule resolution the step performs, if any: the batch
lookup for a brand-new face, or `get_current_schedule` on a periodic or
return-triggered re-check. -/
def detectStep (st : Option PersonSession) (name : String) (now : Nat)
    (lookup : Option SessSched) : Option PersonSession × List Ev :=
  match st with
  | none => detectNew name now lookup
  | some s =>
    let r := presencePhase s now
    if r.2.2 then
      let r' := recheckPhase { r.1 with last_schedule_check := now } lookup
      (some r'.1, r.2.1 ++ r'.2)
    else (some r.1, r.2.1)

/-- Run a sequence of detections of one identity (each with its own
timestamp and schedule-resolution outcome) from a session state. -/
def runDetect (st : Option PersonSession) (name : String) :
    List (Nat × Option SessSched) → Option PersonSession × List Ev
  | [] => (st, [])
  | (now, lookup) :: rest =>
    let r := detectStep st name now lookup
    let r' := runDetect r.1 name rest
    (r'.1, r.2 ++ r'.2)

/-! ## Attendance log queue (`local_database.py`) and sync service
(`sync_local_logs.py`) -/

/-- `sync_local_logs.BATCH_SIZE`. -/
def SYNC_BATCH_SIZE : Nat := 10

/-- One row of the `attendance_logs_queue` table. -/
structure QEntry where
  id : Nat
  instructor_name : String
  schedule_id : String
  camera_id : String
  date : String
  time_in : Option String
  time_out : Option String
  status : String
  log_type : Option String
  is_late : Bool
  synced : Bool
  deriving DecidableEq, Repr

/-- The local SQLite queue: rows in `created_at` order together with
the next auto-increment row id. -/
structure LocalDB where
  entries : List QEntry
  nextId : Nat
  deriving DecidableEq, Repr

/-- `local_database.queue_attendance_log`: insert the entry with
`synced = 0` and return its row id. -/
def queue_attendance_log (db : LocalDB) (instructor_name schedule_id camera_id date : String)
    (time_in time_out : Option String) (status : String) (log_type : Option String)
    (is_late : Bool) : LocalDB × Nat :=
  ({ entries := db.entries ++
      [{ id := db.nextId
         instructor_name := instructor_name
         schedule_id := schedule_id
         camera_id := camera_id
         date := date
         time_in := time_in
         time_out := time_out
         status := status
         log_type := log_type
         is_late := is_late
         synced := false }]
     nextId := db.nextId + 1 }, db.nextId)

/-- `local_database.get_unsynced_logs`: the oldest `limit` unsynced
rows, in creation order. -/
def get_unsynced_logs (db : LocalDB) (limit : Nat) : List QEntry :=
  (db.entries.filter (fun e => !e.synced)).take limit

/-- `local_database.mark_log_synced`. -/
def mark_log_synced (l : List QEntry) (logId : Nat) : List QEntry :=
  l.map (fun e => if e.id = logId then { e with synced := true } else e)

/-- `local_database.clear_old_synced_logs`: delete synced rows past the
retention window (`oldP` decides, from the row id, whether its
`synced_at` is older than the window). -/
def clear_old_synced_logs (oldP : Nat → Bool) (l : List QEntry) : List QEntry :=
  l.filter (fun e => !(e.synced && oldP e.id))

/-- `recognizer_arcface.log_time_in`: validate the schedule id, queue
the entry locally first (synchronously, with `synced = 0`), then — when
not in offline mode and connectivity is detected — attempt one POST to
the backend, marking the row synced only on a 200 response.  Every
outcome after the local write reports success. -/
def log_time_in (db : LocalDB) (instructor_name schedule_id camera_id : String)
    (is_late : Bool) (date clock : String) (offline : Bool) (net : NetOutcome) :
    LocalDB × Bool :=
  let log_type := if is_late then "late" else "time in"
  match validSchedId (some schedule_id) with
  | none => (db, false)
  | some sid =>
    let (db₁, log_id) := queue_attendance_log db
      (format_instructor_name instructor_name) sid camera_id date
      (some clock) none (if is_late then "late" else "present") (some log_type) is_late
    if offline then (db₁, true)
    else
      match net with
      | .noConnectivity => (db₁, true)
      | .netError => (db₁, true)
      | .status code =>
        if code = 200 then
          ({ db₁ with entries := mark_log_synced db₁.entries log_id }, true)
        else (db₁, true)

/-- The dispatch test of `LogSyncService.sync_logs`: a row is POSTable
when it has a `time_in` and no `time_out` (time-in log) or a `time_out`
(time-out log); rows with neither are skipped by the loop. -/
def postableB (e : QEntry) : Bool :=
  (e.time_in.isSome && e.time_out.isNone) || e.time_out.isSome

/-- One POST of `LogSyncService.sync_logs` for one queued row,
dispatched on the row's `time_in`/`time_out` fields exactly as the
source does; rows with neither field are skipped.  `resp` gives the
backend's behaviour for each row id.  Returns the updated table and the
ids of the rows whose POST reached the backend (got any HTTP
response). -/
def syncBatchLoop (resp : Nat → NetOutcome) :
    List QEntry → List QEntry → List QEntry × List Nat
  | [], entries => (entries, [])
  | e :: rest, entries =>
    if postableB e then
      match resp e.id with
      | .noConnectivity =>
        -- requests raises; the exception is caught and the loop continues
        syncBatchLoop resp rest entries
      | .netError => syncBatchLoop resp rest entries
      | .status code =>
        let entries₁ := if code = 200 then mark_log_synced entries e.id else entries
        let r := syncBatchLoop resp rest entries₁
        (r.1, e.id :: r.2)
    else
      syncBatchLoop resp rest entries

/-- `LogSyncService.sync_logs`: fetch at most `BATCH_SIZE` unsynced
rows, POST each, mark the 200-acknowledged ones synced, then purge old
synced rows. -/
def sync_logs (resp : Nat → NetOutcome) (oldP : Nat → Bool) (db : LocalDB) :
    LocalDB × List Nat :=
  let batch := get_unsynced_logs db SYNC_BATCH_SIZE
  let r := syncBatchLoop resp batch db.entries
  ({ db with entries := clear_old_synced_logs oldP r.1 }, r.2)

/-- A run of sync cycles, each with its own backend behaviour and
retention predicate; deliveries are accumulated in order. -/
def syncRuns : List ((Nat → NetOutcome) × (Nat → Bool)) → LocalDB → LocalDB × List Nat
  | [], db => (db, [])
  | (resp, oldP) :: rest, db =>
    let (db₁, ds) := sync_logs resp oldP db
    let (db₂, ds') := syncRuns rest db₁
    (db₂, ds ++ ds')

/-- Number of unsynced rows. -/
def unsyncedCount (db : LocalDB) : Nat :=
  (db.entries.filter (fun e => !e.synced)).length

/-! ## Theorems -/

/-- Auxiliary: `mark_log_synced` never changes a row's
`instructor_name`. -/
theorem mark_log_synced_map_name (l : List QEntry) (i : Nat) :
    (mark_log_synced l i).map QEntry.instructor_name = l.map QEntry.instructor_name := by
  induction l with
  | nil => rfl
  | cons e t ih =>
    simp only [mark_log_synced, List.map_cons] at ih ⊢
    by_cases h : e.id = i <;> simp [h, ih]

/-- C10: for every face-folder name whose underscore/space-separated
split yields at least two parts, `format_instructor_name` returns
exactly `"<last part>, <first part>"`, discarding all middle parts; for
names with fewer than two parts it returns the input unchanged; and the
formatted name is the instructor key recorded by every attendance log
entry (`log_time_in`) and the key every cache schedule lookup uses (a
cache without the formatted name as a key never resolves a
schedule). -/
theorem format_instructor_name_spec (folder : String) :
    (∀ f l : List Char,
      (nameParts folder).head? = some f →
      (nameParts folder).getLast? = some l →
      2 ≤ (nameParts folder).length →
      format_instructor_name folder = ⟨l ++ ", ".data ++ f⟩) ∧
    ((nameParts folder).length < 2 → format_instructor_name folder = folder) ∧
    (∀ db sched_id camera_id late date clock offline net,
      (validSchedId (some sched_id)).isSome →
      (log_time_in db folder sched_id camera_id late date clock offline net).1.entries.map
          QEntry.instructor_name =
        db.entries.map QEntry.instructor_name ++ [format_instructor_name folder]) ∧
    (∀ cache day date t,
      (∀ p ∈ cache, p.1 ≠ format_instructor_name folder) →
      get_current_schedule_from_cache cache folder day date t = none) := by
  refine ⟨?_, ?_, ?_, ?_⟩
  · intro f l hf hl hlen
    rw [format_instructor_name, if_pos hlen]
    rw [List.headD_eq_head?, hf, List.getLastD_eq_getLast?, hl]
    rfl
  · intro hlen
    rw [format_instructor_name, if_neg (by omega)]
  · intro db sched_id camera_id late date clock offline net hvalid
    rw [log_time_in]
    obtain ⟨sid, hsid⟩ := Option.isSome_iff_exists.mp hvalid
    rw [hsid]
    simp only [queue_attendance_log]
    split
    · simp
    · split
      · simp
      · simp
      · split
        · simp [mark_log_synced_map_name]
        · simp
  · intro cache day date t hmiss
    rw [get_current_schedule_from_cache]
    have : cache.find? (fun p => p.1 = format_instructor_name folder) = none := by
      rw [List.find?_eq_none]
      intro p hp
      simpa using hmiss p hp
    simp [this]

/-- C10 witness: the docstring example `'Mark_Lorenz_Quibral'`
formats to `'Quibral, Mark'`, dropping the middle name. -/
theorem format_instructor_name_spec_witness :
    format_instructor_name "Mark_Lorenz_Quibral" = "Quibral, Mark" := by
  have h := (format_instructor_name_spec "Mark_Lorenz_Quibral").1
    "Mark".data "Quibral".data (by decide) (by decide) (by decide)
  exact h.trans (by decide)

/-- C9: every session reachable through the tracker's operations keeps
a non-null `left_at` whenever it is absent; consequently
`mark_returned` never dereferences a `None` `left_at` (the model never
returns `none`, which marks the Python `TypeError`), and calling
`mark_returned` on a present session returns `(False, 0)` and leaves
the session unchanged. -/
theorem personSession_left_at_safety (s : PersonSession) (h : ReachableSession s) :
    (s.is_present = false → s.left_at.isSome) ∧
    (∀ now, (s.mark_returned now).isSome) ∧
    (s.is_present = true → ∀ now, s.mark_returned now = some (s, false, 0)) := by
  have key : s.is_present = false → s.left_at.isSome := by
    induction h with
    | init name now => simp [PersonSession.init]
    | update s now _ ih =>
      unfold PersonSession.update_presence
      split <;> simpa using ih
    | leave s now _ ih =>
      unfold PersonSession.mark_left
      split
      · simp
      · simpa using ih
    | ret s now r _ hr ih =>
      unfold PersonSession.mark_returned at hr
      split at hr
      · cases hr; exact ih
      · split at hr
        · cases hr
        · cases hr; simp
    | setSchedule s sch late flag lt chk _ ih => simpa using ih
  refine ⟨key, ?_, ?_⟩
  · intro now
    unfold PersonSession.mark_returned
    split
    · simp
    · rename_i hpres
      have := key (by revert hpres; cases s.is_present <;> simp)
      obtain ⟨t, ht⟩ := Option.isSome_iff_exists.mp this
      rw [ht]
      simp
  · intro hpres now
    unfold PersonSession.mark_returned
    rw [if_pos hpres]

/-- C9 witness: a freshly created session that left at time 10 and
returned at time 40 exercises both `mark_returned` conclusions. -/
theorem personSession_left_at_safety_witness :
    (((PersonSession.init "A" 0).mark_left 10).1.mark_returned 40).isSome ∧
    (PersonSession.init "A" 0).mark_returned 5 =
      some (PersonSession.init "A" 0, false, 0) := by
  constructor
  · exact (personSession_left_at_safety ((PersonSession.init "A" 0).mark_left 10).1
      (ReachableSession.leave _ 10 (ReachableSession.init "A" 0))).2.1 40
  · exact (personSession_left_at_safety (PersonSession.init "A" 0)
      (ReachableSession.init "A" 0)).2.2 (by decide) 5

/-- Auxiliary: inversion for `List.findSome?`. -/
theorem findSome?_inv {α β : Type _} (f : α → Option β) :
    ∀ (l : List α) (b : β), l.findSome? f = some b → ∃ a, a ∈ l ∧ f a = some b := by
  intro l b
  induction l with
  | nil => simp
  | cons x t ih =>
    rw [List.findSome?_cons]
    cases hfx : f x with
    | some v =>
      intro h
      exact ⟨x, by simp, by rw [hfx]; exact h⟩
    | none =>
      intro h
      obtain ⟨a, ha, hfa⟩ := ih h
      exact ⟨a, by simp [ha], hfa⟩

/-- A cached schedule for room `Lab 2`, Mondays 08:00–10:00, used to
exhibit the cache resolver's missing room check. -/
def c1CacheSchedule : CSchedule :=
  { id := some "65f0abc123"
    courseCode := some "CS101"
    room := "Lab 2"
    startTime := "08:00"
    endTime := "10:00"
    semesterStartDate := "2026-01-01"
    semesterEndDate := "2026-12-31"
    days := [("mon", true)] }

/-- C1 counterexample: resolving John Smith's schedule through
`get_current_schedule_from_cache` on a Monday at 09:00 — inside the
time window, but for a schedule whose room `"Lab 2"` does **not** match
the camera's room `"Lab 1"` (per the code's own room-match test) —
yields `isValidSchedule = true`: the cache resolver never consults the
room, so a matching time window with a mismatched room does not resolve
to `isValidSchedule = false` as the claim states. -/
theorem cache_schedule_ignores_room_counterexample :
    get_current_schedule_from_cache [("Smith, John", [c1CacheSchedule])] "John_Smith"
        "mon" "2026-10-12" 540 =
      some { id := "65f0abc123", courseCode := "CS101", room := "Lab 2",
             isValidSchedule := true, is_late := true } ∧
    roomMatchB "Lab 1" "Lab 2" = false := by decide

/-- C1 (amended): for the local-database resolver
`local_database.get_current_schedule`, the claim holds: a resolved
schedule's `isValidSchedule` is `true` only if the current time lies in
the scheduled window extended by the 30-minute pre-class buffer *and*
the provided room matches the schedule's room (case-insensitive exact
or substring match); with a provided room, `isValidSchedule` equals the
room-match flag exactly, so a matching time window with a mismatched
room resolves (without throwing) to `isValidSchedule = false` and a
matching room to `true`.  The in-memory cache resolver
(`get_current_schedule_from_cache`), by contrast, sets
`isValidSchedule = true` on any time match, ignoring the room. -/
theorem localdb_schedule_validity
    (rows : List DbSchedule) (name : String) (room_name : Option String)
    (today current_day : String) (cur : Int) :
    (∀ r, localdb_get_current_schedule rows name room_name today current_day cur = some r →
      r.timeMatch = true ∧
      (∃ sm em, parse_time_string r.startTime = some sm ∧
        parse_time_string r.endTime = some em ∧
        (sm : Int) - 30 ≤ cur ∧ cur ≤ (em : Int)) ∧
      (∀ rn, room_name = some rn →
        r.isValidSchedule = roomMatchB rn r.room ∧
        r.roomMatch = some (roomMatchB rn r.room)) ∧
      (room_name = none → r.isValidSchedule = true ∧ r.roomMatch = none)) ∧
    (∀ (s : DbSchedule) (rn : String) (sm em : Nat),
      lsub name.data s.instructor_name.data = true →
      lexLe s.semester_start_date.data today.data = true →
      lexLe today.data s.semester_end_date.data = true →
      daysGet s.days current_day = true →
      parse_time_string s.start_time = some sm →
      parse_time_string s.end_time = some em →
      (sm : Int) - 30 ≤ cur → cur ≤ (em : Int) →
      (localdb_get_current_schedule [s] name (some rn) today current_day cur).map
          DbScheduleResult.isValidSchedule = some (roomMatchB rn s.room)) := by
  constructor
  · intro r hr
    unfold localdb_get_current_schedule at hr
    obtain ⟨a, _, hfa⟩ := findSome?_inv _ _ _ hr
    cases room_name with
    | none =>
      simp only [dbScheduleRowMatch] at hfa
      split at hfa
      · split at hfa
        · rename_i sm em hsm hem
          split at hfa
          · rename_i hwin
            rw [Option.some_inj] at hfa
            subst hfa
            refine ⟨rfl, ⟨sm, em, hsm, hem, hwin.1, hwin.2⟩, ?_, ?_⟩
            · intro rn hrn
              exact absurd hrn (by simp)
            · intro _
              exact ⟨rfl, by simp⟩
          · exact absurd hfa (by simp)
        · exact absurd hfa (by simp)
      · exact absurd hfa (by simp)
    | some rn =>
      simp only [dbScheduleRowMatch] at hfa
      split at hfa
      · split at hfa
        · rename_i sm em hsm hem
          split at hfa
          · rename_i hwin
            rw [Option.some_inj] at hfa
            subst hfa
            refine ⟨rfl, ⟨sm, em, hsm, hem, hwin.1, hwin.2⟩, ?_, ?_⟩
            · intro rn' hrn'
              cases hrn'
              exact ⟨rfl, by simp⟩
            · intro hrn
              exact absurd hrn (by simp)
          · exact absurd hfa (by simp)
        · exact absurd hfa (by simp)
      · exact absurd hfa (by simp)
  · intro s rn sm em hname hsem1 hsem2 hday hsm hem hw1 hw2
    unfold localdb_get_current_schedule
    rw [show (List.filter (fun s =>
        lsub name.data s.instructor_name.data
          && lexLe s.semester_start_date.data today.data
          && lexLe today.data s.semester_end_date.data) [s]) = [s] by
      simp [List.filter, hname, hsem1, hsem2]]
    simp [List.findSome?_cons, dbScheduleRowMatch, hday, hsm, hem, hw1, hw2]

/-- C1 witness for the amended theorem: a concrete local-database row
for room `Lab 1`, Mondays 08:00–10:00, queried with the camera room
`lab 1 ` at 09:00, resolves with `isValidSchedule = true` (and the
mismatched variant is the counterexample theorem). -/
theorem localdb_schedule_validity_witness :
    (localdb_get_current_schedule
        [{ id := "sch1", instructor_name := "Smith, John", course_code := "CS101",
           course_title := "Intro", room := "Lab 1", start_time := "08:00",
           end_time := "10:00", semester_start_date := "2026-01-01",
           semester_end_date := "2026-12-31", days := [("mon", true)] }]
        "Smith" (some " lab 1") "2026-10-12" "mon" 540).map
      DbScheduleResult.isValidSchedule = some true := by
  have h := (localdb_schedule_validity
      [{ id := "sch1", instructor_name := "Smith, John", course_code := "CS101",
         course_title := "Intro", room := "Lab 1", start_time := "08:00",
         end_time := "10:00", semester_start_date := "2026-01-01",
         semester_end_date := "2026-12-31", days := [("mon", true)] }]
      "Smith" (some " lab 1") "2026-10-12" "mon" 540).2
    { id := "sch1", instructor_name := "Smith, John", course_code := "CS101",
      course_title := "Intro", room := "Lab 1", start_time := "08:00",
      end_time := "10:00", semester_start_date := "2026-01-01",
      semester_end_date := "2026-12-31", days := [("mon", true)] }
    " lab 1" 480 600 (by decide) (by decide) (by decide) (by decide)
    (by decide) (by decide) (by decide) (by decide)
  exact h.trans (by decide)

/-- A balanced store: the parallel name list has exactly one entry per
matrix row. -/
def EmbStore.balanced (st : EmbStore) : Prop :=
  st.known_names.length = st.known_embeddings.length

/-- Auxiliary: the image-processing loop always appends embeddings and
names in lockstep. -/
theorem loadLoop_balanced (normF : List Int → List Int) :
    ∀ (items : List (String × ImageOutcome)) (acc : List (List Int) × List String),
      acc.2.length = acc.1.length →
      (items.foldl (loadStep normF) acc).2.length =
        (items.foldl (loadStep normF) acc).1.length := by
  intro items
  induction items with
  | nil => intro acc h; exact h
  | cons it rest ih =>
    intro acc h
    rw [List.foldl_cons]
    apply ih
    unfold loadStep
    cases it.2 with
    | unreadable => exact h
    | noFace => exact h
    | face raw =>
      cases hh : acc.1.head? with
      | some e0 =>
        simp only [hh]
        split
        · exact h
        · simp [h]
      | none => simp [hh, h]

/-- C6: every reload leaves the store's `(matrix, names)` snapshot
either completely unchanged (in particular on every failure path:
missing dataset directory, no readable images, no usable faces) or
replaced in one step by the fully new pairing built during the walk;
the pairing is never of mismatched lengths — a balanced store stays
balanced, and a failed reload returns the identical store. -/
theorem load_embeddings_atomic (normF : List Int → List Int) (datasetExists : Bool)
    (people : List (String × List ImageOutcome)) (st : EmbStore)
    (hbal : st.balanced) :
    ((load_embeddings normF datasetExists people st).2 = false →
      (load_embeddings normF datasetExists people st).1 = st) ∧
    (load_embeddings normF datasetExists people st).1.balanced ∧
    ((load_embeddings normF datasetExists people st).1 = st ∨
      (load_embeddings normF datasetExists people st).2 = true) := by
  simp only [load_embeddings]
  split
  · exact ⟨fun _ => rfl, hbal, Or.inl rfl⟩
  · split
    · exact ⟨fun _ => rfl, hbal, Or.inl rfl⟩
    · split
      · exact ⟨fun _ => rfl, hbal, Or.inl rfl⟩
      · refine ⟨fun h => absurd h (by simp), ?_, Or.inr rfl⟩
        unfold EmbStore.balanced
        exact loadLoop_balanced normF _ ([], []) rfl

/-- C6 witness: a one-person dataset with one readable face reloads a
previously empty balanced store into the new one-row pairing. -/
theorem load_embeddings_atomic_witness :
    (load_embeddings id true [("A", [ImageOutcome.face [1, 2]])]
        { known_embeddings := [], known_names := [] }).1.balanced ∧
    (load_embeddings id true [("A", [ImageOutcome.face [1, 2]])]
        { known_embeddings := [], known_names := [] }).2 = true := by
  have h := load_embeddings_atomic id true [("A", [ImageOutcome.face [1, 2]])]
    { known_embeddings := [], known_names := [] } rfl
  exact ⟨h.2.1, by decide⟩

/-- Auxiliary: sum of squares of a componentwise-divided vector. -/
theorem sumSq_map_div (c : ℚ) (hc : c ≠ 0) :
    ∀ q : List ℚ, sumSq (q.map (fun x => x / c)) = sumSq q / (c * c) := by
  intro q
  induction q with
  | nil => simp [sumSq]
  | cons x t ih =>
    simp only [sumSq, List.map_cons, List.sum_cons] at ih ⊢
    rw [ih]
    field_simp

/-- Auxiliary: invariants of the running-argmax scan relative to the
already-scanned prefix of the similarity column. -/
theorem argmaxAux_spec (t : List ℚ) :
    ∀ (pre : List ℚ) (best : Nat × ℚ),
      best.1 < pre.length →
      pre.getD best.1 0 = best.2 →
      (∀ j, j < best.1 → pre.getD j 0 < best.2) →
      (∀ j, j < pre.length → pre.getD j 0 ≤ best.2) →
      (argmaxAux t pre.length best).1 < (pre ++ t).length ∧
      (pre ++ t).getD (argmaxAux t pre.length best).1 0 =
        (argmaxAux t pre.length best).2 ∧
      (∀ j, j < (argmaxAux t pre.length best).1 →
        (pre ++ t).getD j 0 < (argmaxAux t pre.length best).2) ∧
      (∀ j, j < (pre ++ t).length →
        (pre ++ t).getD j 0 ≤ (argmaxAux t pre.length best).2) := by
  induction t with
  | nil =>
    intro pre best h1 h2 h3 h4
    simp only [argmaxAux, List.append_nil]
    exact ⟨h1, h2, h3, h4⟩
  | cons x t ih =>
    intro pre best h1 h2 h3 h4
    have hgoal : argmaxAux (x :: t) pre.length best =
        argmaxAux t (pre ++ [x]).length (if best.2 < x then (pre.length, x) else best) := by
      simp [argmaxAux]
    have hassoc : (pre ++ [x]) ++ t = pre ++ x :: t := by simp
    by_cases hcmp : best.2 < x
    · have hx : (pre ++ [x]).getD pre.length 0 = x := by
        rw [List.getD_append_right _ _ _ _ (le_refl _)]
        simp
      have h := ih (pre ++ [x]) (pre.length, x)
        (by simp)
        hx
        (fun j hj => by
          rw [List.getD_append _ _ _ _ hj]
          exact lt_of_le_of_lt (h4 j hj) hcmp)
        (fun j hj => by
          rcases Nat.lt_or_ge j pre.length with hlt | hge
          · rw [List.getD_append _ _ _ _ hlt]
            exact le_of_lt (lt_of_le_of_lt (h4 j hlt) hcmp)
          · rw [List.getD_append_right _ _ _ _ hge]
            have : j = pre.length := by
              simp only [List.length_append, List.length_cons, List.length_nil] at hj
              omega
            subst this
            simp)
      rw [hgoal, if_pos hcmp]
      rw [hassoc] at h
      exact h
    · have h := ih (pre ++ [x]) best
        (by simp; omega)
        (by rw [List.getD_append _ _ _ _ h1]; exact h2)
        (fun j hj => by
          rw [List.getD_append _ _ _ _ (lt_trans hj h1)]
          exact h3 j hj)
        (fun j hj => by
          rcases Nat.lt_or_ge j pre.length with hlt | hge
          · rw [List.getD_append _ _ _ _ hlt]
            exact h4 j hlt
          · rw [List.getD_append_right _ _ _ _ hge]
            have : j = pre.length := by
              simp only [List.length_append, List.length_cons, List.length_nil] at hj
              omega
            subst this
            simpa using le_of_not_lt hcmp)
      rw [hgoal, if_neg hcmp]
      rw [hassoc] at h
      exact h

/-- Auxiliary: the argmax of a nonempty similarity column is a valid
row index attaining the column's maximum value, and is the first index
to do so. -/
theorem argmaxL_spec (col : List ℚ) (hcol : col ≠ []) :
    (argmaxL col).1 < col.length ∧
    col.getD (argmaxL col).1 0 = (argmaxL col).2 ∧
    (∀ j, j < (argmaxL col).1 → col.getD j 0 < (argmaxL col).2) ∧
    (∀ j, j < col.length → col.getD j 0 ≤ (argmaxL col).2) := by
  cases col with
  | nil => exact absurd rfl hcol
  | cons c0 rest =>
    have h := argmaxAux_spec rest [c0] (0, c0)
      (by simp) (by simp) (by simp) (by
        intro j hj
        simp only [List.length_cons, List.length_nil] at hj
        interval_cases j
        · simp)
    simpa using h

/-- C7: the matcher (i) normalizes each query to unit length — in exact
arithmetic, dividing by the (floored) Euclidean norm yields a vector of
unit squared norm; (ii) computes, for each query column of the single
matrix product `known · queriesᵀ`, the first best row index and its
similarity value (`np.argmax` semantics); and (iii) admits a face into
downstream processing (detected-names set, session handling, detection
entry) exactly when its best score strictly exceeds `CONF_THRESHOLD`:
a below-threshold face index never appears in the output — it is not
surfaced under any name, "unknown" or otherwise — and every admitted
face carries the argmax row's name and score. -/
theorem matcher_spec :
    (∀ (q : List ℚ) (nrm : ℚ), NORM_FLOOR ≤ nrm → nrm * nrm = sumSq q →
      sumSq (normalizeQ q nrm) = 1) ∧
    (∀ (known : List (List ℚ)) (q : List ℚ), known ≠ [] →
      (matchFace known q).1 < known.length ∧
      (simColumn known q).getD (matchFace known q).1 0 = (matchFace known q).2 ∧
      (∀ j, j < (matchFace known q).1 →
        (simColumn known q).getD j 0 < (matchFace known q).2) ∧
      (∀ j, j < known.length →
        (simColumn known q).getD j 0 ≤ (matchFace known q).2)) ∧
    (∀ (known : List (List ℚ)) (names : List String) (queries : List (List ℚ)) (j : Nat),
      (matchFace known (queries.getD j [])).2 ≤ CONF_THRESHOLD →
      ∀ e ∈ processFaces known names queries, e.1 ≠ j) ∧
    (∀ (known : List (List ℚ)) (names : List String) (queries : List (List ℚ)),
      ∀ e ∈ processFaces known names queries,
        CONF_THRESHOLD < e.2.2 ∧
        e.2.1 = names.getD (matchFace known (queries.getD e.1 [])).1 "" ∧
        e.2.2 = (matchFace known (queries.getD e.1 [])).2) := by
  refine ⟨?_, ?_, ?_, ?_⟩
  · intro q nrm hfloor hnorm
    have hpos : (0 : ℚ) < nrm := lt_of_lt_of_le (by norm_num [NORM_FLOOR]) hfloor
    have hmax : max nrm NORM_FLOOR = nrm := max_eq_left hfloor
    unfold normalizeQ
    rw [hmax, sumSq_map_div nrm (ne_of_gt hpos), ← hnorm]
    exact div_self (by positivity)
  · intro known q hne
    have hcol : simColumn known q ≠ [] := by
      simpa [simColumn] using hne
    have h := argmaxL_spec (simColumn known q) hcol
    simpa [matchFace, simColumn] using h
  · intro known names queries j hle e he
    unfold processFaces at he
    obtain ⟨a, _, hfa⟩ := List.mem_filterMap.mp he
    by_cases hth : CONF_THRESHOLD < (matchFace known (queries.getD a [])).2
    · rw [if_pos hth] at hfa
      cases hfa
      intro hej
      subst hej
      exact absurd hth (not_lt_of_le hle)
    · rw [if_neg hth] at hfa
      cases hfa
  · intro known names queries e he
    unfold processFaces at he
    obtain ⟨a, _, hfa⟩ := List.mem_filterMap.mp he
    by_cases hth : CONF_THRESHOLD < (matchFace known (queries.getD a [])).2
    · rw [if_pos hth] at hfa
      cases hfa
      exact ⟨hth, rfl, rfl⟩
    · rw [if_neg hth] at hfa
      cases hfa

/-- C7 witness: two orthonormal known embeddings; the query `[0, 1]`
matches row 1 with score 1, and a batch containing one sub-threshold
query (best score 1/2 < 0.45 is false, so use score 1/3) is excluded
from the processed output. -/
theorem matcher_spec_witness :
    sumSq (normalizeQ [3, 4] 5) = 1 ∧
    (matchFace [[1, 0], [0, 1]] [0, 1]).1 < 2 ∧
    (∀ e ∈ processFaces [[1, 0], [0, 1]] ["A", "B"] [[0, 1], [0, 1/3]], e.1 ≠ 1) := by
  refine ⟨?_, ?_, ?_⟩
  · exact matcher_spec.1 [3, 4] 5 (by norm_num [NORM_FLOOR]) (by norm_num [sumSq])
  · exact (matcher_spec.2.1 [[1, 0], [0, 1]] [0, 1] (by simp)).1
  · exact matcher_spec.2.2.1 [[1, 0], [0, 1]] ["A", "B"] [[0, 1], [0, 1/3]] 1
      (by norm_num [matchFace, simColumn, dotQ, argmaxL, argmaxAux, CONF_THRESHOLD])

/-- Auxiliary: reading a stream that starts with a 4-byte big-endian
length prefix behaves as the source's four cases dictate. -/
theorem read_single_frame_be4 (n : Nat) (hn : n < 2 ^ 32) (x : List Nat) :
    read_single_frame (be4 n ++ x) =
      (if FRAME_CAP < n then (none, x)
       else if n = 0 then (none, x)
       else if x.length < n then (none, [])
       else (some (x.take n), x.drop n)) := by
  have hdec : ((n / 16777216 % 256 * 256 + n / 65536 % 256) * 256 + n / 256 % 256) * 256
      + n % 256 = n := by omega
  show read_single_frame
      (n / 16777216 % 256 :: n / 65536 % 256 :: n / 256 % 256 :: n % 256 :: x) = _
  rw [read_single_frame]
  simp only [hdec]

/-- Auxiliary: reading a stream that starts with a well-formed encoded
frame returns exactly that frame's payload and consumes exactly its
bytes. -/
theorem read_encodeFrame (p : List Nat) (hp : wfFrame p) (rest : List Nat) :
    read_single_frame (encodeFrame p ++ rest) = (some p, rest) := by
  unfold encodeFrame
  rw [List.append_assoc,
    read_single_frame_be4 p.length (by
      have := hp.2
      unfold FRAME_CAP at this
      omega)]
  rw [if_neg (by exact not_lt_of_le hp.2),
    if_neg (Nat.pos_iff_ne_zero.mp hp.1),
    if_neg (by simp)]
  rw [List.take_left, List.drop_left]

/-- Auxiliary: an encoded nonempty frame list is a nonempty stream. -/
theorem encodeAll_ne_nil (fs : List (List Nat)) (h : fs ≠ []) :
    encodeAll fs ≠ [] := by
  cases fs with
  | nil => exact absurd rfl h
  | cons p t =>
    simp [encodeAll, encodeFrame, be4]

/-- C2 counterexample: the drain loop is capped at `max_skip = 100`
reads, so 101 frames submitted before any is consumed make the drain
return the 100th frame — an earlier frame is delivered and the 101st
(last) is not the value returned; and the producer/consumer hand-off
queue (`Queue(maxsize=5)`) holds two pending frames after two submits,
refuting "at most one pending frame". -/
theorem drain_not_latest_counterexample :
    drainLatest MAX_SKIP none (encodeAll ((List.range 101).map (fun i => [i]))) =
      (some [99], encodeFrame [100]) ∧
    ((List.range 101).map (fun i => [i])).getLastD [] = [100] ∧
    queueSubmit (queueSubmit [] [0]) [1] = [[0], [1]] := by
  refine ⟨?_, by decide, by decide⟩
  set_option maxRecDepth 100000 in decide

/-- C2 (amended): for up to `max_skip = 100` well-formed frames
submitted before any is consumed, the drain loop returns exactly the
last frame's content and consumes the entire stream, so none of the
earlier frames can ever be delivered; beyond 100 pending frames the
drain stops early (see the counterexample).  The hand-off queue between
producer and consumer holds up to `maxsize = 5` pending frames (not
one), dropping the oldest and keeping the newest when full. -/
theorem drainLatest_returns_newest (fs : List (List Nat))
    (hwf : ∀ p ∈ fs, wfFrame p) (hne : fs ≠ []) (hlen : fs.length ≤ MAX_SKIP) :
    drainLatest MAX_SKIP none (encodeAll fs) = (some (fs.getLastD []), []) ∧
    (∀ (q : List (List Nat)) (f : List Nat), q.length ≤ FRAME_QUEUE_MAXSIZE →
      (queueSubmit q f).length ≤ FRAME_QUEUE_MAXSIZE ∧
      (queueSubmit q f).getLast? = some f) := by
  constructor
  · have main : ∀ (fs : List (List Nat)) (fuel : Nat) (latest : Option (List Nat)),
        (∀ p ∈ fs, wfFrame p) → fs ≠ [] → fs.length ≤ fuel →
        drainLatest fuel latest (encodeAll fs) = (some (fs.getLastD []), []) := by
      intro fs
      induction fs with
      | nil => intro fuel latest _ hne; exact absurd rfl hne
      | cons p t ih =>
        intro fuel latest hwf _ hlen
        obtain ⟨n, rfl⟩ : ∃ n, fuel = n + 1 := by
          cases fuel with
          | zero => exact absurd hlen (by simp)
          | succ n => exact ⟨n, rfl⟩
        have henc : encodeAll (p :: t) = encodeFrame p ++ encodeAll t := by
          simp [encodeAll]
        rw [henc]
        show (match read_single_frame (encodeFrame p ++ encodeAll t) with
          | (none, s') => (latest, s')
          | (some f, s') =>
            if s'.isEmpty then (some f, s') else drainLatest n (some f) s') = _
        rw [read_encodeFrame p (hwf p (by simp)) (encodeAll t)]
        cases t with
        | nil => simp [encodeAll]
        | cons q u =>
          have hnonempty : (encodeAll (q :: u)).isEmpty = false := by
            rw [List.isEmpty_eq_false_iff_exists_mem]
            cases henc' : encodeAll (q :: u) with
            | nil => exact absurd henc' (encodeAll_ne_nil _ (by simp))
            | cons a b => exact ⟨a, by simp⟩
          simp only [hnonempty, Bool.false_eq_true, if_false]
          have := ih n (some p) (fun x hx => hwf x (by simp [hx])) (by simp)
            (by simpa using Nat.le_of_succ_le_succ hlen)
          rw [this]
          simp
    exact main fs MAX_SKIP none hwf hne hlen
  · intro q f hq
    unfold FRAME_QUEUE_MAXSIZE at hq
    unfold queueSubmit FRAME_QUEUE_MAXSIZE
    split
    · refine ⟨?_, by simp⟩
      rename_i hlt
      simp only [List.length_append, List.length_cons, List.length_nil]
      omega
    · refine ⟨?_, by simp⟩
      simp only [List.length_append, List.length_drop, List.length_cons,
        List.length_nil]
      omega

/-- C2 witness: three one-byte frames drain to the third frame's
content with nothing left over, and the queue conclusions hold for an
empty queue. -/
theorem drainLatest_returns_newest_witness :
    drainLatest MAX_SKIP none (encodeAll [[1], [2], [3]]) = (some [3], []) ∧
    (queueSubmit [] [9]).getLast? = some [9] := by
  have h := drainLatest_returns_newest [[1], [2], [3]]
    (by intro p hp; fin_cases hp <;> exact ⟨by decide, by decide⟩)
    (by decide) (by decide)
  exact ⟨h.1.trans (by decide), (h.2 [] [9] (by decide)).2⟩

/-- C8 counterexample: a frame whose declared length is
`FRAME_CAP + 1` (one byte over the 10 MiB cap) followed by a perfectly
well-formed one-byte frame `[7]`.  The first read drops the oversized
frame but consumes only its 4 header bytes, leaving the whole payload
in the stream; the next read then parses payload bytes as a length
prefix and returns `none` instead of the pending valid frame — the
stream is misinterpreted, not re-framed (reading the valid frame alone
would have returned `some [7]`). -/
theorem oversized_frame_desync_counterexample :
    read_single_frame (encodeFrame (List.replicate (FRAME_CAP + 1) 0) ++ [0, 0, 0, 1, 7]) =
      (none, List.replicate (FRAME_CAP + 1) 0 ++ [0, 0, 0, 1, 7]) ∧
    (read_single_frame (List.replicate (FRAME_CAP + 1) 0 ++ [0, 0, 0, 1, 7])).1 = none ∧
    read_single_frame [0, 0, 0, 1, 7] = (some [7], []) := by
  refine ⟨?_, ?_, by decide⟩
  · rw [encodeFrame, List.length_replicate, List.append_assoc,
      read_single_frame_be4 (FRAME_CAP + 1) (by norm_num [FRAME_CAP])]
    rw [if_pos (by norm_num [FRAME_CAP])]
  · have hrep : List.replicate (FRAME_CAP + 1) (0 : Nat) =
        be4 0 ++ List.replicate (FRAME_CAP - 3) 0 := by
      rw [show FRAME_CAP + 1 = 4 + (FRAME_CAP - 3) from by norm_num [FRAME_CAP],
        List.replicate_add]
      rfl
    rw [hrep, List.append_assoc, read_single_frame_be4 0 (by norm_num)]
    rw [if_neg (show ¬ FRAME_CAP < 0 by decide), if_pos rfl]

/-- C8 (amended): a frame with length prefix 0 is a protocol error for
that frame only — the reader consumes the 4 header bytes, drops the
frame, and the next read correctly frames the following frame (a
zero-length frame has no payload to desynchronize on); the reader never
throws (it returns `None`).  A frame whose declared length exceeds the
10 MiB cap is also dropped without terminating the pipeline, but the
reader consumes only the 4 header bytes and leaves the oversized
payload in the stream, so subsequent reads parse payload bytes as
headers: the stream is misinterpreted rather than re-framed (see the
counterexample). -/
theorem frame_protocol_error_scope (p rest : List Nat) (hp : wfFrame p) :
    read_single_frame (be4 0 ++ (encodeFrame p ++ rest)) =
      (none, encodeFrame p ++ rest) ∧
    read_single_frame (encodeFrame p ++ rest) = (some p, rest) ∧
    (∀ (n : Nat) (payload : List Nat), FRAME_CAP < n → n < 2 ^ 32 →
      payload.length = n →
      read_single_frame (be4 n ++ (payload ++ rest)) = (none, payload ++ rest)) := by
  refine ⟨?_, read_encodeFrame p hp rest, ?_⟩
  · rw [read_single_frame_be4 0 (by norm_num)]
    rw [if_neg (by norm_num [FRAME_CAP]), if_pos rfl]
  · intro n payload hcap _ _
    rw [read_single_frame_be4 n (by assumption)]
    rw [if_pos hcap]

/-- C8 witness: after dropping a zero-length frame the reader returns
exactly the following one-byte frame `[9]`. -/
theorem frame_protocol_error_scope_witness :
    read_single_frame (be4 0 ++ (encodeFrame [9] ++ [])) = (none, encodeFrame [9] ++ []) ∧
    read_single_frame (encodeFrame [9] ++ []) = (some [9], []) := by
  have h := frame_protocol_error_scope [9] [] (by exact ⟨by decide, by decide⟩)
  exact ⟨h.1, h.2.1⟩

/-- A present session with a valid schedule and a logged time-in, last
seen at time 0, used against the absence monitor. -/
def c5Session : PersonSession :=
  { name := "A"
    first_seen := 0
    last_seen := 0
    total_time_seconds := 0
    is_present := true
    left_at := none
    schedule := some { id := some "abc123", is_late := false }
    time_in_logged := true
    time_out_logged := false
    is_late := false
    log_type := some "time in"
    last_schedule_check := 0 }

/-- C5 counterexample: a scheduled, present session not seen for
exactly the absence timeout transitions to absent, but when the
backend answers the time-out POST with a non-200 status
(`log_time_out` returns `False` on any non-200 response), only the
`left` event is emitted — no `time_out` event accompanies it, so the
transition does not emit "exactly one left/time_out event pair" as the
claim states. -/
theorem absent_transition_no_pair_counterexample :
    (checkAbsentSession c5Session false 300 false (NetOutcome.status 500)).2.1 =
      [Ev.left] ∧
    (checkAbsentSession c5Session false 300 false (NetOutcome.status 500)).1.is_present =
      false ∧
    (checkAbsentSession c5Session false 300 false (NetOutcome.status 500)).1.time_out_logged =
      false := by decide

/-- C5 (amended): a present session not seen in the current batch
transitions to absent only after the absence timeout has elapsed since
`last_seen` and only if it has a resolved schedule (an unscheduled or
recently-seen or already-absent or currently-detected session is left
untouched with no events); at the transition exactly one
`left` event is emitted, accompanied by exactly one `time_out` event
provided a time-in was logged, no time-out was logged yet, the
schedule id is valid and the time-out logging call succeeds (offline
mode, missing connectivity, network errors and a 200 response all
succeed; a non-200 response suppresses the `time_out` event — see the
counterexample); once absent, later monitor runs emit nothing, so the
pair is emitted at most once. -/
theorem absence_transition_spec (s : PersonSession) (detected : Bool) (now : Nat)
    (offline : Bool) (net : NetOutcome) :
    (s.schedule = none →
      (checkAbsentSession s detected now offline net).1 = s ∧
      (checkAbsentSession s detected now offline net).2.1 = []) ∧
    (now - s.last_seen < ABSENCE_TIMEOUT_SECONDS →
      (checkAbsentSession s detected now offline net).1 = s ∧
      (checkAbsentSession s detected now offline net).2.1 = []) ∧
    (s.is_present = false →
      (checkAbsentSession s detected now offline net).1 = s ∧
      (checkAbsentSession s detected now offline net).2.1 = []) ∧
    (detected = true →
      (checkAbsentSession s detected now offline net).1 = s ∧
      (checkAbsentSession s detected now offline net).2.1 = []) ∧
    (∀ sid : String,
      s.is_present = true → detected = false →
      ABSENCE_TIMEOUT_SECONDS ≤ now - s.last_seen →
      s.time_in_logged = true → s.time_out_logged = false →
      validSchedId (s.schedule.map SessSched.id).join = some sid →
      log_time_out_ok (some sid) offline net = true →
      (checkAbsentSession s detected now offline net).2.1 = [Ev.time_out, Ev.left] ∧
      (checkAbsentSession s detected now offline net).1.is_present = false ∧
      (checkAbsentSession s detected now offline net).1.time_out_logged = true ∧
      (checkAbsentSession s detected now offline net).1.left_at = some now) := by
  refine ⟨?_, ?_, ?_, ?_, ?_⟩
  · intro hsch
    unfold checkAbsentSession
    rw [if_neg (by simp [hsch])]
    exact ⟨rfl, rfl⟩
  · intro htime
    unfold checkAbsentSession
    by_cases hc : s.is_present = true ∧ ¬ detected = true ∧ s.schedule.isSome = true
    · rw [if_pos hc, if_neg (show ¬ ABSENCE_TIMEOUT_SECONDS ≤ now - s.last_seen by omega)]
      exact ⟨rfl, rfl⟩
    · rw [if_neg hc]
      exact ⟨rfl, rfl⟩
  · intro habs
    unfold checkAbsentSession
    rw [if_neg (by simp [habs])]
    exact ⟨rfl, rfl⟩
  · intro hdet
    unfold checkAbsentSession
    rw [if_neg (by simp [hdet])]
    exact ⟨rfl, rfl⟩
  · intro sid hpres hdet htime hin hout hsid hok
    have hsch : s.schedule.isSome := by
      cases hs : s.schedule with
      | none => rw [hs] at hsid; simp [validSchedId] at hsid
      | some sch => simp
    have hml : (s.mark_left now).1.schedule = s.schedule ∧
        (s.mark_left now).1.time_in_logged = s.time_in_logged ∧
        (s.mark_left now).1.time_out_logged = s.time_out_logged ∧
        (s.mark_left now).1.is_present = false ∧
        (s.mark_left now).1.left_at = some now := by
      unfold PersonSession.mark_left PersonSession.update_presence
      rw [if_pos hpres]
      split <;> exact ⟨rfl, rfl, rfl, rfl, rfl⟩
    unfold checkAbsentSession
    simp only [hml.1, hml.2.1, hml.2.2.1, hml.2.2.2.1, hml.2.2.2.2,
      hsid, hok, hpres, hdet, hsch, hin, hout, htime]
    simp

/-- C5 witness: the same session as the counterexample, with the
backend answering 200, emits the `time_out`/`left` pair exactly and
becomes absent. -/
theorem absence_transition_spec_witness :
    (checkAbsentSession c5Session false 300 false (NetOutcome.status 200)).2.1 =
      [Ev.time_out, Ev.left] ∧
    (checkAbsentSession c5Session false 300 false (NetOutcome.status 200)).1.is_present =
      false := by
  have h := (absence_transition_spec c5Session false 300 false
      (NetOutcome.status 200)).2.2.2.2 "abc123"
    (by decide) (by decide) (by decide) (by decide) (by decide)
    (by decide) (by decide)
  exact ⟨h.1, h.2.1⟩

/-- The `time_in_logged` flag of an optional session (`false` when no
session exists yet). -/
def flagOf : Option PersonSession → Bool
  | some s => s.time_in_logged
  | none => false

/-- Auxiliary: `mark_returned` changes neither the `time_in_logged`
flag nor the stored schedule. -/
theorem mark_returned_fields (s : PersonSession) (now : Nat)
    (r : PersonSession × Bool × Nat) (h : s.mark_returned now = some r) :
    r.1.time_in_logged = s.time_in_logged ∧ r.1.schedule = s.schedule := by
  unfold PersonSession.mark_returned at h
  split at h
  · cases h; exact ⟨rfl, rfl⟩
  · split at h
    · cases h
    · cases h; exact ⟨rfl, rfl⟩

/-- Auxiliary: `update_presence` changes neither the `time_in_logged`
flag nor the stored schedule. -/
theorem update_presence_fields (s : PersonSession) (now : Nat) :
    (s.update_presence now).time_in_logged = s.time_in_logged ∧
    (s.update_presence now).schedule = s.schedule := by
  unfold PersonSession.update_presence
  split <;> exact ⟨rfl, rfl⟩

/-- Auxiliary: the presence-refresh phase emits no time-in and no
`first_detected` event and preserves the `time_in_logged` flag. -/
theorem presencePhase_facts (s : PersonSession) (now : Nat) :
    (presencePhase s now).2.1.countP isTimeInEv = 0 ∧
    (presencePhase s now).2.1.countP isFirstDetectedEv = 0 ∧
    (presencePhase s now).1.time_in_logged = s.time_in_logged := by
  unfold presencePhase
  split
  · split
    · rename_i s' d heq
      have hf := mark_returned_fields s now _ heq
      simp only [Prod.fst] at hf
      simp [isTimeInEv, isFirstDetectedEv, hf.1]
    · simp [isTimeInEv, isFirstDetectedEv]
  · have hf := update_presence_fields s now
    simp [isTimeInEv, isFirstDetectedEv, hf.1]

/-- Auxiliary: the schedule re-check phase emits at most one time-in
event, never a `first_detected`; it emits none at all when
`time_in_logged` is already set (and keeps the flag set), and whenever
it does emit one it sets the flag in the same step. -/
theorem recheckPhase_facts (s₂ : PersonSession) (lookup : Option SessSched) :
    (recheckPhase s₂ lookup).2.countP isTimeInEv ≤ 1 ∧
    (recheckPhase s₂ lookup).2.countP isFirstDetectedEv = 0 ∧
    (s₂.time_in_logged = true →
      (recheckPhase s₂ lookup).2.countP isTimeInEv = 0 ∧
      (recheckPhase s₂ lookup).1.time_in_logged = true) ∧
    ((recheckPhase s₂ lookup).2.countP isTimeInEv = 1 →
      (recheckPhase s₂ lookup).1.time_in_logged = true) := by
  unfold recheckPhase
  split
  · dsimp only
    split
    · split
      · rename_i hflag hok
        refine ⟨by simp [isTimeInEv], by simp [isFirstDetectedEv], ?_, by simp⟩
        intro hf
        exact absurd hf (by simpa using hflag)
      · refine ⟨by simp [isTimeInEv], by simp [isFirstDetectedEv], ?_, by simp [isTimeInEv]⟩
        intro hf
        rename_i hflag _
        exact absurd hf (by simpa using hflag)
    · rename_i hflag
      refine ⟨by simp [isTimeInEv], by simp [isFirstDetectedEv], ?_, by simp [isTimeInEv]⟩
      intro hf
      exact ⟨by simp [isTimeInEv], by simpa using hflag⟩
  · exact ⟨by simp [isTimeInEv], by simp [isFirstDetectedEv],
      fun hf => ⟨by simp [isTimeInEv], by simpa using hf⟩, by simp [isTimeInEv]⟩
  · exact ⟨by simp [isTimeInEv], by simp [isFirstDetectedEv],
      fun hf => ⟨by simp [isTimeInEv], by simpa using hf⟩, by simp [isTimeInEv]⟩
  · exact ⟨by simp [isTimeInEv], by simp [isFirstDetectedEv],
      fun hf => ⟨by simp [isTimeInEv], by simpa using hf⟩, by simp [isTimeInEv]⟩

/-- Auxiliary: session creation emits at most one time-in and exactly
one of `first_detected`/`detected_no_schedule`; a time-in emission sets
the flag in the same step, and the session always exists afterwards. -/
theorem detectNew_facts (name : String) (now : Nat) (lookup : Option SessSched) :
    (detectNew name now lookup).1.isSome = true ∧
    (detectNew name now lookup).2.countP isTimeInEv ≤ 1 ∧
    (detectNew name now lookup).2.countP isFirstDetectedEv ≤ 1 ∧
    ((detectNew name now lookup).2.countP isTimeInEv = 1 →
      flagOf (detectNew name now lookup).1 = true) := by
  unfold detectNew
  cases lookup with
  | none => simp [isTimeInEv, isFirstDetectedEv, flagOf]
  | some sch =>
    cases hok : log_time_in_ok sch.id <;>
      simp [hok, isTimeInEv, isFirstDetectedEv, flagOf]

/-- Auxiliary: the per-step facts the idempotence induction needs. -/
theorem detectStep_facts (st : Option PersonSession) (name : String) (now : Nat)
    (lookup : Option SessSched) :
    (detectStep st name now lookup).1.isSome = true ∧
    (detectStep st name now lookup).2.countP isTimeInEv ≤ 1 ∧
    (detectStep st name now lookup).2.countP isFirstDetectedEv ≤ 1 ∧
    (st.isSome = true → (detectStep st name now lookup).2.countP isFirstDetectedEv = 0) ∧
    (flagOf st = true →
      (detectStep st name now lookup).2.countP isTimeInEv = 0 ∧
      flagOf (detectStep st name now lookup).1 = true) ∧
    ((detectStep st name now lookup).2.countP isTimeInEv = 1 →
      flagOf (detectStep st name now lookup).1 = true) := by
  cases st with
  | none =>
    have h := detectNew_facts name now lookup
    refine ⟨h.1, h.2.1, h.2.2.1, ?_, ?_, h.2.2.2⟩
    · intro hc
      exact absurd hc (by simp)
    · intro hc
      exact absurd hc (by simp [flagOf])
  | some s =>
    have hp := presencePhase_facts s now
    show ((if (presencePhase s now).2.2 then _ else _ : Option PersonSession × List Ev).1.isSome = true) ∧ _
    by_cases hrc : (presencePhase s now).2.2 = true
    · have hr := recheckPhase_facts
        { (presencePhase s now).1 with last_schedule_check := now } lookup
      have hflagmid : ({ (presencePhase s now).1 with
          last_schedule_check := now } : PersonSession).time_in_logged =
            s.time_in_logged := hp.2.2
      rw [detectStep, if_pos hrc] at *
      refine ⟨by simp, ?_, ?_, ?_, ?_, ?_⟩
      · simp only [List.countP_append, hp.1, Nat.zero_add]
        exact hr.1
      · simp only [List.countP_append, hp.2.1, Nat.zero_add, hr.2.1]
        omega
      · intro _
        simp only [List.countP_append, hp.2.1, hr.2.1]
      · intro hf
        have hf' : ({ (presencePhase s now).1 with
            last_schedule_check := now } : PersonSession).time_in_logged = true := by
          rw [hflagmid]
          simpa [flagOf] using hf
        have := hr.2.2.1 hf'
        constructor
        · simp only [List.countP_append, hp.1, this.1]
        · simpa [flagOf] using this.2
      · intro hone
        simp only [List.countP_append, hp.1, Nat.zero_add] at hone
        simpa [flagOf] using hr.2.2.2 hone
    · rw [detectStep, if_neg hrc]
      refine ⟨by simp, by simp [hp.1], by simp [hp.2.1], fun _ => by simp [hp.2.1], ?_, ?_⟩
      · intro hf
        exact ⟨by simp [hp.1], by simp [flagOf, hp.2.2]; simpa [flagOf] using hf⟩
      · intro hone
        rw [hp.1] at hone
        cases hone

/-- Auxiliary: over any run of detections, at most one time-in (or
late) event is emitted, none at all when the session's
`time_in_logged` flag is already set; at most one `first_detected`
event is emitted, none at all when the session already exists. -/
theorem runDetect_counts (name : String) :
    ∀ (steps : List (Nat × Option SessSched)) (st : Option PersonSession),
      ((flagOf st = true → (runDetect st name steps).2.countP isTimeInEv ≤ 0) ∧
        (runDetect st name steps).2.countP isTimeInEv ≤ 1) ∧
      ((st.isSome = true → (runDetect st name steps).2.countP isFirstDetectedEv ≤ 0) ∧
        (runDetect st name steps).2.countP isFirstDetectedEv ≤ 1) := by
  intro steps
  induction steps with
  | nil =>
    intro st
    refine ⟨⟨fun _ => ?_, ?_⟩, fun _ => ?_, ?_⟩ <;> simp [runDetect]
  | cons p rest ih =>
    intro st
    obtain ⟨now, lookup⟩ := p
    have hs := detectStep_facts st name now lookup
    have hrec := ih (detectStep st name now lookup).1
    rw [show runDetect st name ((now, lookup) :: rest) =
      ((runDetect (detectStep st name now lookup).1 name rest).1,
       (detectStep st name now lookup).2 ++
         (runDetect (detectStep st name now lookup).1 name rest).2) from rfl]
    simp only [List.countP_append]
    have hfd_rest : (runDetect (detectStep st name now lookup).1 name rest).2.countP
        isFirstDetectedEv ≤ 0 := hrec.2.1 hs.1
    refine ⟨⟨?_, ?_⟩, ?_, ?_⟩
    · intro hf
      have h0 := hs.2.2.2.2.1 hf
      have hrest := hrec.1.1 h0.2
      omega
    · by_cases h1 : (detectStep st name now lookup).2.countP isTimeInEv = 1
      · have hrest := hrec.1.1 (hs.2.2.2.2.2 h1)
        omega
      · have hle := hs.2.1
        have hrest := hrec.1.2
        omega
    · intro hst
      have h0 := hs.2.2.2.1 hst
      omega
    · have hle := hs.2.2.1
      omega

/-- C4: starting with no session, any sequence of detections of one
identity — each with an arbitrary timestamp and arbitrary
schedule-resolution outcome — produces at most one time-in (or late)
log event and at most one `first_detected` event; once a session's
`time_in_logged` flag is set, no detection ever emits another time-in
for that session; and an absence-monitor run before the absence
timeout elapses leaves the session and event stream untouched, so
repeated detections within the absence timeout cannot produce a second
`first_detected`/time-in through the monitor either. -/
theorem session_time_in_idempotent (name : String) :
    (∀ steps : List (Nat × Option SessSched),
      (runDetect none name steps).2.countP isTimeInEv ≤ 1 ∧
      (runDetect none name steps).2.countP isFirstDetectedEv ≤ 1) ∧
    (∀ (s : PersonSession) (steps : List (Nat × Option SessSched)),
      s.time_in_logged = true →
      (runDetect (some s) name steps).2.countP isTimeInEv = 0) ∧
    (∀ (s : PersonSession) (detected : Bool) (now : Nat) (offline : Bool)
        (net : NetOutcome),
      now - s.last_seen < ABSENCE_TIMEOUT_SECONDS →
      (checkAbsentSession s detected now offline net).1 = s ∧
      (checkAbsentSession s detected now offline net).2.1 = []) := by
  refine ⟨?_, ?_, ?_⟩
  · intro steps
    have h := runDetect_counts name steps none
    exact ⟨h.1.2, h.2.2⟩
  · intro s steps hflag
    have h := (runDetect_counts name steps (some s)).1.1
      (show flagOf (some s) = true from hflag)
    omega
  · intro s detected now offline net htime
    unfold checkAbsentSession
    by_cases hc : s.is_present = true ∧ ¬ detected = true ∧ s.schedule.isSome = true
    · rw [if_pos hc,
        if_neg (show ¬ ABSENCE_TIMEOUT_SECONDS ≤ now - s.last_seen by omega)]
      exact ⟨rfl, rfl⟩
    · rw [if_neg hc]
      exact ⟨rfl, rfl⟩

/-- C4 witness: two detections of the same identity six seconds apart,
both resolving the same schedule, emit at most one time-in; and a
session with the flag set emits none. -/
theorem session_time_in_idempotent_witness :
    (runDetect none "A" [(0, some { id := some "abc", is_late := false }),
        (6, some { id := some "abc", is_late := false })]).2.countP isTimeInEv ≤ 1 ∧
    (runDetect (some { PersonSession.init "A" 0 with time_in_logged := true }) "A"
        [(6, some { id := some "abc", is_late := false })]).2.countP isTimeInEv = 0 := by
  constructor
  · exact ((session_time_in_idempotent "A").1
      [(0, some { id := some "abc", is_late := false }),
       (6, some { id := some "abc", is_late := false })]).1
  · exact (session_time_in_idempotent "A").2.1
      { PersonSession.init "A" 0 with time_in_logged := true }
      [(6, some { id := some "abc", is_late := false })] rfl

/-! ### Sync-service lemmas (C3) -/

/-- Marking a set of row ids synced in one pass. -/
def markIds (ids : List Nat) (l : List QEntry) : List QEntry :=
  l.map (fun y => if y.id ∈ ids then { y with synced := true } else y)

/-- A backend that acknowledges every POST with HTTP 200
(connectivity restored). -/
def ok200 : Nat → NetOutcome := fun _ => NetOutcome.status 200

/-- A retention predicate that purges nothing (no row is older than
the retention window yet). -/
def keepAll : Nat → Bool := fun _ => false

/-- Iterated sync cycles against a restored backend. -/
def runsOk200 : Nat → LocalDB → LocalDB × List Nat
  | 0, db => (db, [])
  | fuel + 1, db =>
    let r := sync_logs ok200 keepAll db
    let r' := runsOk200 fuel r.1
    (r'.1, r.2 ++ r'.2)

/-- Purging with nothing past retention leaves the table unchanged. -/
theorem clear_old_keepAll (l : List QEntry) : clear_old_synced_logs keepAll l = l := by
  unfold clear_old_synced_logs keepAll
  simp

/-- A run against an unreachable backend (every POST raises a network
error) changes no rows and delivers nothing. -/
theorem syncBatchLoop_netfail (resp : Nat → NetOutcome)
    (hresp : ∀ i, resp i = NetOutcome.netError) :
    ∀ (batch entries : List QEntry), syncBatchLoop resp batch entries = (entries, []) := by
  intro batch
  induction batch with
  | nil => intro entries; rfl
  | cons b rest ih =>
    intro entries
    unfold syncBatchLoop
    rw [hresp b.id]
    split
    · exact ih entries
    · exact ih entries

/-- `mark_log_synced` is `markIds` on a single id. -/
theorem mark_eq_markIds (l : List QEntry) (i : Nat) :
    mark_log_synced l i = markIds [i] l := by
  unfold mark_log_synced markIds
  simp

/-- Composing a single mark with a set mark. -/
theorem markIds_cons (l : List QEntry) (i : Nat) (ids : List Nat) :
    markIds ids (mark_log_synced l i) = markIds (i :: ids) l := by
  unfold markIds mark_log_synced
  rw [List.map_map]
  apply List.map_congr_left
  intro y _
  by_cases hy : y.id = i
  · simp [hy]
  · by_cases hmem : y.id ∈ ids <;> simp [hy, hmem]

/-- Against a 200-acknowledging backend, a batch of POSTable rows is
delivered id-for-id and exactly those rows are marked synced. -/
theorem syncBatchLoop_ok200 :
    ∀ (batch entries : List QEntry), (∀ b ∈ batch, postableB b = true) →
      syncBatchLoop ok200 batch entries =
        (markIds (batch.map QEntry.id) entries, batch.map QEntry.id) := by
  intro batch
  induction batch with
  | nil =>
    intro entries _
    unfold syncBatchLoop markIds
    simp
  | cons b rest ih =>
    intro entries hpost
    unfold syncBatchLoop
    have hb : postableB b = true := hpost b (by simp)
    rw [if_pos hb]
    show (let entries₁ := if 200 = 200 then mark_log_synced entries b.id else entries
      let r := syncBatchLoop ok200 rest entries₁
      (r.1, b.id :: r.2)) = _
    rw [if_pos rfl]
    dsimp only
    rw [ih (mark_log_synced entries b.id) (fun x hx => hpost x (by simp [hx]))]
    simp [markIds_cons]

/-- Delivered ids always come from the batch. -/
theorem syncBatchLoop_deliveries_sub (resp : Nat → NetOutcome) :
    ∀ (batch entries : List QEntry) (i : Nat),
      i ∈ (syncBatchLoop resp batch entries).2 → i ∈ batch.map QEntry.id := by
  intro batch
  induction batch with
  | nil =>
    intro entries i h
    simp [syncBatchLoop] at h
  | cons b rest ih =>
    intro entries i h
    unfold syncBatchLoop at h
    split at h
    · split at h
      · exact List.mem_cons_of_mem _ (ih _ i h)
      · exact List.mem_cons_of_mem _ (ih _ i h)
      · dsimp only at h
        rcases List.mem_cons.mp h with h' | h'
        · simp [h']
        · exact List.mem_cons_of_mem _ (ih _ i h')
    · exact List.mem_cons_of_mem _ (ih _ i h)

/-- Marking preserves the id column. -/
theorem markIds_map_id (ids : List Nat) (l : List QEntry) :
    (markIds ids l).map QEntry.id = l.map QEntry.id := by
  unfold markIds
  rw [List.map_map]
  apply List.map_congr_left
  intro y _
  by_cases h : y.id ∈ ids <;> simp [h]

/-- A row whose id is not marked survives marking unchanged. -/
theorem mem_markIds_of_not_mem (ids : List Nat) (l : List QEntry) (e : QEntry)
    (he : e ∈ l) (hid : e.id ∉ ids) : e ∈ markIds ids l := by
  unfold markIds
  have hfe : (fun y => if y.id ∈ ids then { y with synced := true } else y) e = e := by
    simp [hid]
  exact hfe ▸ List.mem_map_of_mem _ he

/-- An unsynced row of a marked table was already present unmarked. -/
theorem unsynced_mem_of_markIds (ids : List Nat) (l : List QEntry) (x : QEntry)
    (hx : x ∈ markIds ids l) (hs : x.synced = false) : x ∈ l := by
  unfold markIds at hx
  obtain ⟨y, hy, hxy⟩ := List.mem_map.mp hx
  by_cases h : y.id ∈ ids
  · rw [if_pos h] at hxy
    rw [← hxy] at hs
    cases hs
  · rw [if_neg h] at hxy
    exact hxy ▸ hy

/-- Every row of a marked table is an original row or its synced copy
(same id either way). -/
theorem mem_markIds_inv (ids : List Nat) (l : List QEntry) (x : QEntry)
    (hx : x ∈ markIds ids l) :
    ∃ y, y ∈ l ∧ x.id = y.id ∧ (x = y ∨ x = { y with synced := true }) := by
  unfold markIds at hx
  obtain ⟨y, hy, hxy⟩ := List.mem_map.mp hx
  by_cases h : y.id ∈ ids
  · rw [if_pos h] at hxy
    exact ⟨y, hy, by rw [← hxy], Or.inr hxy.symm⟩
  · rw [if_neg h] at hxy
    exact ⟨y, hy, by rw [← hxy], Or.inl hxy.symm⟩

/-- Marking an id that no row carries changes nothing. -/
theorem mark_noop (l : List QEntry) (i : Nat) (h : ∀ x ∈ l, x.id ≠ i) :
    mark_log_synced l i = l := by
  induction l with
  | nil => rfl
  | cons y t ih =>
    unfold mark_log_synced at ih ⊢
    simp only [List.map_cons]
    rw [if_neg (h y (by simp)), ih (fun x hx => h x (by simp [hx]))]

/-- Marking one present unsynced id decrements the unsynced count by
exactly one (ids unique). -/
theorem count_unsynced_mark (i : Nat) :
    ∀ (l : List QEntry), (l.map QEntry.id).Nodup →
      ∀ x, x ∈ l → x.id = i → x.synced = false →
      ((mark_log_synced l i).filter (fun e => !e.synced)).length + 1 =
        (l.filter (fun e => !e.synced)).length := by
  intro l
  induction l with
  | nil =>
    intro _ x hx
    cases hx
  | cons y t ih =>
    intro hnd x hx hxi hxs
    have hnd' : (t.map QEntry.id).Nodup := (List.nodup_cons.mp hnd).2
    have hyni : y.id ∉ t.map QEntry.id := (List.nodup_cons.mp hnd).1
    unfold mark_log_synced
    simp only [List.map_cons]
    by_cases hy : y.id = i
    · have hrest : ∀ z ∈ t, z.id ≠ i := by
        intro z hz hzi
        exact hyni (by rw [hy, ← hzi]; exact List.mem_map_of_mem _ hz)
      have hxy : x = y := by
        rcases List.mem_cons.mp hx with h | h
        · exact h
        · exact absurd hxi (hrest x h)
      have hysync : y.synced = false := by rw [← hxy]; exact hxs
      rw [if_pos hy]
      rw [show t.map (fun e => if e.id = i then { e with synced := true } else e) = t from
        mark_noop t i hrest]
      simp [List.filter_cons, hysync]
    · have hx' : x ∈ t := by
        rcases List.mem_cons.mp hx with h | h
        · exact absurd (h ▸ hxi) hy
        · exact h
      have := ih hnd' x hx' hxi hxs
      unfold mark_log_synced at this
      rw [if_neg hy]
      by_cases hys : y.synced = true <;>
        simp only [List.filter_cons, hys] <;> simp_all

/-- Marking a duplicate-free set of present unsynced ids decrements
the unsynced count by the size of the set. -/
theorem count_unsynced_markIds :
    ∀ (ids : List Nat) (l : List QEntry), (l.map QEntry.id).Nodup → ids.Nodup →
      (∀ i ∈ ids, ∃ x, x ∈ l ∧ x.id = i ∧ x.synced = false) →
      ((markIds ids l).filter (fun e => !e.synced)).length + ids.length =
        (l.filter (fun e => !e.synced)).length := by
  intro ids
  induction ids with
  | nil =>
    intro l _ _ _
    simp [markIds]
  | cons i rest ih =>
    intro l hnd hidnd hw
    rw [← markIds_cons]
    obtain ⟨x, hx, hxi, hxs⟩ := hw i (by simp)
    have h1 := count_unsynced_mark i l hnd x hx hxi hxs
    have h2 := ih (mark_log_synced l i)
      (by rw [mark_eq_markIds, markIds_map_id]; exact hnd)
      (List.nodup_cons.mp hidnd).2
      (by
        intro j hj
        obtain ⟨z, hz, hzj, hzs⟩ := hw j (List.mem_cons_of_mem _ hj)
        have hzi : z.id ≠ i := by
          intro hcontra
          exact (List.nodup_cons.mp hidnd).1 (by rw [← hzj, hcontra] at hj; exact hj)
        refine ⟨z, ?_, hzj, hzs⟩
        rw [mark_eq_markIds]
        exact mem_markIds_of_not_mem [i] l z hz (by simpa using hzi))
    simp only [List.length_cons]
    omega

/-- Batch rows are unsynced rows of the table. -/
theorem batch_mem (db : LocalDB) (b : QEntry)
    (hb : b ∈ get_unsynced_logs db SYNC_BATCH_SIZE) :
    b ∈ db.entries ∧ b.synced = false := by
  unfold get_unsynced_logs at hb
  have hmem := List.take_subset _ _ hb
  have h2 := List.mem_filter.mp hmem
  exact ⟨h2.1, by simpa using h2.2⟩

/-- The 200-acknowledged cycle on a table whose unsynced rows are all
POSTable: it marks exactly the first `BATCH_SIZE` unsynced rows synced
and delivers exactly their ids, in order. -/
theorem sync_logs_ok200 (db : LocalDB)
    (hpost : ∀ x ∈ db.entries, x.synced = false → postableB x = true) :
    (sync_logs ok200 keepAll db).1.entries =
      markIds ((get_unsynced_logs db SYNC_BATCH_SIZE).map QEntry.id) db.entries ∧
    (sync_logs ok200 keepAll db).2 =
      (get_unsynced_logs db SYNC_BATCH_SIZE).map QEntry.id := by
  unfold sync_logs
  dsimp only
  rw [syncBatchLoop_ok200 _ _ (fun b hb => hpost b (batch_mem db b hb).1 (batch_mem db b hb).2)]
  rw [clear_old_keepAll]
  exact ⟨rfl, rfl⟩

/-- A marked row whose id is in the marked set is synced. -/
theorem markIds_synced_of_mem (ids : List Nat) (l : List QEntry) (x : QEntry)
    (hx : x ∈ markIds ids l) (hid : x.id ∈ ids) : x.synced = true := by
  unfold markIds at hx
  obtain ⟨y, _, hxy⟩ := List.mem_map.mp hx
  by_cases h : y.id ∈ ids
  · rw [if_pos h] at hxy
    rw [← hxy]
  · rw [if_neg h] at hxy
    rw [← hxy] at hid
    exact absurd hid h

/-- Rows of the table after one sync cycle, for an arbitrary backend:
each is an original row or its synced copy. -/
theorem syncBatchLoop_entries_inv (resp : Nat → NetOutcome) :
    ∀ (batch entries : List QEntry) (x : QEntry),
      x ∈ (syncBatchLoop resp batch entries).1 →
      ∃ y, y ∈ entries ∧ x.id = y.id ∧ (x = y ∨ x = { y with synced := true }) := by
  intro batch
  induction batch with
  | nil =>
    intro entries x hx
    exact ⟨x, hx, rfl, Or.inl rfl⟩
  | cons b rest ih =>
    intro entries x hx
    unfold syncBatchLoop at hx
    split at hx
    · split at hx
      · exact ih entries x hx
      · exact ih entries x hx
      · dsimp only at hx
        rename_i code heq
        obtain ⟨y', hy', hid', hcase'⟩ := ih _ x hx
        by_cases hc : code = 200
        · rw [if_pos hc, mark_eq_markIds] at hy'
          obtain ⟨y, hy, hid, hcase⟩ := mem_markIds_inv _ _ y' hy'
          refine ⟨y, hy, hid' ▸ hid, ?_⟩
          rcases hcase' with h1 | h1 <;> rcases hcase with h2 | h2
          · exact Or.inl (h1 ▸ h2)
          · exact Or.inr (h1 ▸ h2)
          · exact Or.inr (by rw [h1, h2])
          · exact Or.inr (by rw [h1, h2])
        · rw [if_neg hc] at hy'
          exact ⟨y', hy', hid', hcase'⟩
    · exact ih entries x hx

/-- A row id carried only by synced rows is never delivered by any
sync cycle — whatever the backend answers and whatever the retention
predicate purges — and afterwards the id is still carried only by
synced rows. -/
theorem sync_logs_no_redelivery (resp : Nat → NetOutcome) (oldP : Nat → Bool)
    (db : LocalDB) (i : Nat)
    (h : ∀ x ∈ db.entries, x.id = i → x.synced = true) :
    i ∉ (sync_logs resp oldP db).2 ∧
    (∀ x ∈ (sync_logs resp oldP db).1.entries, x.id = i → x.synced = true) := by
  constructor
  · intro hmem
    have hdel : i ∈ (get_unsynced_logs db SYNC_BATCH_SIZE).map QEntry.id :=
      syncBatchLoop_deliveries_sub resp _ db.entries i hmem
    obtain ⟨b, hb, hbid⟩ := List.mem_map.mp hdel
    have hbm := batch_mem db b hb
    rw [h b hbm.1 hbid] at hbm
    cases hbm.2
  · intro x hx hxi
    have hx' : x ∈ (syncBatchLoop resp (get_unsynced_logs db SYNC_BATCH_SIZE) db.entries).1 := by
      have : x ∈ clear_old_synced_logs oldP
          (syncBatchLoop resp (get_unsynced_logs db SYNC_BATCH_SIZE) db.entries).1 := hx
      unfold clear_old_synced_logs at this
      exact List.mem_of_mem_filter this
    obtain ⟨y, hy, hid, hcase⟩ := syncBatchLoop_entries_inv resp _ _ x hx'
    rcases hcase with h1 | h1
    · rw [h1]
      exact h y hy (by rw [← hid, hxi])
    · rw [h1]

/-- Once an id is carried only by synced rows, any number of restored
sync cycles delivers it zero more times. -/
theorem runsOk200_no_redelivery :
    ∀ (fuel : Nat) (db : LocalDB) (i : Nat),
      (∀ x ∈ db.entries, x.id = i → x.synced = true) →
      (runsOk200 fuel db).2.count i = 0 ∧
      (∀ x ∈ (runsOk200 fuel db).1.entries, x.id = i → x.synced = true) := by
  intro fuel
  induction fuel with
  | zero =>
    intro db i h
    exact ⟨rfl, h⟩
  | succ fuel ih =>
    intro db i h
    have hstep := sync_logs_no_redelivery ok200 keepAll db i h
    have hrec := ih (sync_logs ok200 keepAll db).1 i hstep.2
    refine ⟨?_, hrec.2⟩
    rw [show (runsOk200 (fuel + 1) db).2 =
      (sync_logs ok200 keepAll db).2 ++ (runsOk200 fuel (sync_logs ok200 keepAll db).1).2
      from rfl]
    rw [List.count_append, List.count_eq_zero_of_not_mem hstep.1, hrec.1]

/-- With connectivity restored, an unsynced POSTable row is delivered
to the backend exactly once over any sufficiently long sequence of
sync cycles, after which every row carrying its id is marked synced. -/
theorem runsOk200_exactly_once :
    ∀ (fuel : Nat) (db : LocalDB) (e : QEntry),
      (db.entries.map QEntry.id).Nodup →
      (∀ x ∈ db.entries, x.synced = false → postableB x = true) →
      e ∈ db.entries → e.synced = false →
      unsyncedCount db ≤ fuel →
      (runsOk200 fuel db).2.count e.id = 1 ∧
      (∀ x ∈ (runsOk200 fuel db).1.entries, x.id = e.id → x.synced = true) := by
  intro fuel
  induction fuel with
  | zero =>
    intro db e hnd hpost he hes hcount
    exfalso
    have hmem : e ∈ db.entries.filter (fun x => !x.synced) :=
      List.mem_filter.mpr ⟨he, by simp [hes]⟩
    have hpos : 0 < unsyncedCount db := by
      unfold unsyncedCount
      exact List.length_pos.mpr (List.ne_nil_of_mem hmem)
    omega
  | succ fuel ih =>
    intro db e hnd hpost he hes hcount
    have hrun := sync_logs_ok200 db hpost
    have hrfl : runsOk200 (fuel + 1) db =
        ((runsOk200 fuel (sync_logs ok200 keepAll db).1).1,
         (sync_logs ok200 keepAll db).2 ++
           (runsOk200 fuel (sync_logs ok200 keepAll db).1).2) := rfl
    have hbatch_sub : List.Sublist (get_unsynced_logs db SYNC_BATCH_SIZE) db.entries :=
      (List.take_sublist _ _).trans (List.filter_sublist _)
    have hbatchids_nodup :
        ((get_unsynced_logs db SYNC_BATCH_SIZE).map QEntry.id).Nodup :=
      hnd.sublist (hbatch_sub.map QEntry.id)
    by_cases hin : e ∈ get_unsynced_logs db SYNC_BATCH_SIZE
    · -- delivered in this cycle, then never again
      have hcount1 : ((get_unsynced_logs db SYNC_BATCH_SIZE).map QEntry.id).count e.id = 1 :=
        List.count_eq_one_of_mem hbatchids_nodup (List.mem_map_of_mem _ hin)
      have hsynced' : ∀ x ∈ (sync_logs ok200 keepAll db).1.entries,
          x.id = e.id → x.synced = true := by
        intro x hx hxi
        rw [hrun.1] at hx
        exact markIds_synced_of_mem _ _ x hx (by rw [hxi]; exact List.mem_map_of_mem _ hin)
      have hrest := runsOk200_no_redelivery fuel (sync_logs ok200 keepAll db).1 e.id hsynced'
      rw [hrfl]
      constructor
      · rw [List.count_append, hrun.2, hcount1, hrest.1]
      · exact hrest.2
    · -- not in this batch: the id is untouched and the count shrinks
      have hid_not : e.id ∉ (get_unsynced_logs db SYNC_BATCH_SIZE).map QEntry.id := by
        intro hmem
        obtain ⟨b, hb, hbid⟩ := List.mem_map.mp hmem
        have hbm := batch_mem db b hb
        have hbe : b = e := List.inj_on_of_nodup_map hnd hbm.1 he hbid
        exact hin (hbe ▸ hb)
      have hnd' : ((sync_logs ok200 keepAll db).1.entries.map QEntry.id).Nodup := by
        rw [hrun.1, markIds_map_id]
        exact hnd
      have hpost' : ∀ x ∈ (sync_logs ok200 keepAll db).1.entries,
          x.synced = false → postableB x = true := by
        intro x hx hxs
        rw [hrun.1] at hx
        exact hpost x (unsynced_mem_of_markIds _ _ x hx hxs) hxs
      have he' : e ∈ (sync_logs ok200 keepAll db).1.entries := by
        rw [hrun.1]
        exact mem_markIds_of_not_mem _ _ e he hid_not
      have hwitness : ∀ i ∈ (get_unsynced_logs db SYNC_BATCH_SIZE).map QEntry.id,
          ∃ x, x ∈ db.entries ∧ x.id = i ∧ x.synced = false := by
        intro i hi
        obtain ⟨b, hb, hbid⟩ := List.mem_map.mp hi
        have hbm := batch_mem db b hb
        exact ⟨b, hbm.1, hbid, hbm.2⟩
      have hdrop := count_unsynced_markIds
        ((get_unsynced_logs db SYNC_BATCH_SIZE).map QEntry.id) db.entries
        hnd hbatchids_nodup hwitness
      have hemem : e ∈ db.entries.filter (fun x => !x.synced) :=
        List.mem_filter.mpr ⟨he, by simp [hes]⟩
      have hulen : 0 < (db.entries.filter (fun x => !x.synced)).length :=
        List.length_pos.mpr (List.ne_nil_of_mem hemem)
      have hbatchlen : 0 < ((get_unsynced_logs db SYNC_BATCH_SIZE).map QEntry.id).length := by
        unfold get_unsynced_logs
        rw [List.length_map, List.length_take]
        unfold SYNC_BATCH_SIZE
        have : (db.entries.filter (fun e => !e.synced)).length =
            (db.entries.filter (fun x => !x.synced)).length := rfl
        omega
      have hcount' : unsyncedCount (sync_logs ok200 keepAll db).1 ≤ fuel := by
        unfold unsyncedCount at hcount ⊢
        rw [hrun.1]
        omega
      have hres := ih (sync_logs ok200 keepAll db).1 e hnd' hpost' he' hes hcount'
      rw [hrfl]
      constructor
      · rw [List.count_append, hrun.2, List.count_eq_zero_of_not_mem hid_not, hres.1]
      · exact hres.2

/-- Concrete queued row for exercising the sync pipeline. -/
def c3Entry : QEntry :=
  { id := 0
    instructor_name := "Smith, John"
    schedule_id := "abc"
    camera_id := "cam1"
    date := "2026-10-12"
    time_in := some "08:00:00"
    time_out := none
    status := "present"
    log_type := some "time in"
    is_late := false
    synced := false }

/-- Concrete one-row local database. -/
def c3DB : LocalDB := { entries := [c3Entry], nextId := 1 }

/-- C3: offline-first attendance queue.  (i) While the remote store is
unreachable (no connectivity detected, or the POST raises a network
error), `log_time_in` still writes the event synchronously to the local
queue with `synced = 0` — exactly one new row, carrying the formatted
instructor name, validated schedule id and timestamp — and reports
success.  (ii) While the store stays unreachable, a sync cycle delivers
nothing and every unsynced row remains in the queue, unsynced.
(iii) Once connectivity is restored, an unsynced POSTable row is
delivered to the remote store exactly once over any sufficiently long
sequence of sync cycles, and afterwards every row carrying its id is
marked synced, so it is never delivered twice. -/
theorem offline_log_queue_sync_spec
    (db : LocalDB) (name sid cam date clock : String) (late : Bool)
    (net : NetOutcome)
    (hnet : net = NetOutcome.noConnectivity ∨ net = NetOutcome.netError)
    (sid' : String) (hsid : validSchedId (some sid) = some sid')
    (resp : Nat → NetOutcome) (hresp : ∀ i, resp i = NetOutcome.netError)
    (oldP : Nat → Bool)
    (fuel : Nat) (db' : LocalDB) (e : QEntry)
    (hnd : (db'.entries.map QEntry.id).Nodup)
    (hpost : ∀ x ∈ db'.entries, x.synced = false → postableB x = true)
    (he : e ∈ db'.entries) (hes : e.synced = false)
    (hfuel : unsyncedCount db' ≤ fuel) :
    ((log_time_in db name sid cam late date clock false net).2 = true ∧
     (log_time_in db name sid cam late date clock false net).1.entries =
       db.entries ++
         [{ id := db.nextId
            instructor_name := format_instructor_name name
            schedule_id := sid'
            camera_id := cam
            date := date
            time_in := some clock
            time_out := none
            status := if late then "late" else "present"
            log_type := some (if late then "late" else "time in")
            is_late := late
            synced := false }]) ∧
    ((sync_logs resp oldP db').2 = [] ∧
     e ∈ (sync_logs resp oldP db').1.entries ∧ e.synced = false) ∧
    ((runsOk200 fuel db').2.count e.id = 1 ∧
     ∀ x ∈ (runsOk200 fuel db').1.entries, x.id = e.id → x.synced = true) := by
  have hsync : sync_logs resp oldP db' =
      ({ db' with entries := clear_old_synced_logs oldP db'.entries }, []) := by
    unfold sync_logs
    dsimp only
    rw [syncBatchLoop_netfail resp hresp]
  refine ⟨?_, ⟨?_, ?_, hes⟩,
    runsOk200_exactly_once fuel db' e hnd hpost he hes hfuel⟩
  · rcases hnet with h | h <;>
      simp [log_time_in, queue_attendance_log, hsid, h]
  · rw [hsync]
  · rw [hsync]
    show e ∈ clear_old_synced_logs oldP db'.entries
    unfold clear_old_synced_logs
    exact List.mem_filter.mpr ⟨he, by simp [hes]⟩

/-- Witness for the C3 theorem at a concrete offline-queued event and a
concrete one-row database. -/
theorem offline_log_queue_sync_spec_witness :
    ((log_time_in ⟨[], 0⟩ "John_Smith" "abc" "cam1" false "2026-10-12" "08:00:00"
        false NetOutcome.noConnectivity).2 = true ∧
     (log_time_in ⟨[], 0⟩ "John_Smith" "abc" "cam1" false "2026-10-12" "08:00:00"
        false NetOutcome.noConnectivity).1.entries =
       (⟨[], 0⟩ : LocalDB).entries ++
         [{ id := (⟨[], 0⟩ : LocalDB).nextId
            instructor_name := format_instructor_name "John_Smith"
            schedule_id := "abc"
            camera_id := "cam1"
            date := "2026-10-12"
            time_in := some "08:00:00"
            time_out := none
            status := if false then "late" else "present"
            log_type := some (if false then "late" else "time in")
            is_late := false
            synced := false }]) ∧
    ((sync_logs (fun _ => NetOutcome.netError) keepAll c3DB).2 = [] ∧
     c3Entry ∈ (sync_logs (fun _ => NetOutcome.netError) keepAll c3DB).1.entries ∧
     c3Entry.synced = false) ∧
    ((runsOk200 1 c3DB).2.count c3Entry.id = 1 ∧
     ∀ x ∈ (runsOk200 1 c3DB).1.entries, x.id = c3Entry.id → x.synced = true) :=
  offline_log_queue_sync_spec ⟨[], 0⟩ "John_Smith" "abc" "cam1" "2026-10-12" "08:00:00"
    false NetOutcome.noConnectivity (Or.inl rfl) "abc" (by decide)
    (fun _ => NetOutcome.netError) (fun _ => rfl) keepAll 1 c3DB c3Entry
    (by decide) (by decide) (by decide) (by decide) (by decide)

end FaceRecog
